import Mathlib

/-!
# Verification of the VideoTools batch scripts

A shallow embedding, in Lean 4, of the pure computational core of the
`video_to_gif.py`, `video_splitter_batch.py` and
`video_audio_separator_batch.py` scripts, together with theorems settling
the specification claims about them.

Times and other numeric quantities of the Python code (IEEE doubles used as
exact values by the scripts' arithmetic) are modelled as rationals `ℚ`;
all comparisons and the +,-,*,/ operations the scripts perform on them are
exact, so `ℚ` is a faithful carrier for the control flow being verified.
-/

/-! ## `video_to_gif.py` — the interval calculator -/

/-- Python's built-in `round` (round-half-to-even, a.k.a. banker's rounding)
on an exact rational value. -/
def pyRound (x : ℚ) : ℤ :=
  if x - ⌊x⌋ < 1/2 then ⌊x⌋
  else if x - ⌊x⌋ > 1/2 then ⌊x⌋ + 1
  else if Even ⌊x⌋ then ⌊x⌋ else ⌊x⌋ + 1

/-- `snap_to_frame(time, fps)` from `video_to_gif.py` (lines 121-127):
snap a time value to the nearest frame boundary for the given fps
(`frame_duration = 1 / fps`, `frame_num = round(time / frame_duration)`,
result `frame_num * frame_duration`). -/
def snap_to_frame (time fps : ℚ) : ℚ :=
  if fps ≤ 0 then time
  else pyRound (time / (1 / fps)) * (1 / fps)

/-- The body of the inner `for (start, end) in keep_ranges` loop of
`calculate_keep_segments` (lines 173-187): the list of ranges that one cut
`[cut_start, cut_end)` leaves of a single keep range `(start, end)`.
The five cases are transcribed in the source's order. -/
def cutRange (cut_start cut_end : ℚ) : ℚ × ℚ → List (ℚ × ℚ)
  | (s, e) =>
    if cut_end ≤ s ∨ cut_start ≥ e then [(s, e)]
    else if cut_start ≤ s ∧ cut_end < e then [(cut_end, e)]
    else if cut_start > s ∧ cut_end ≥ e then [(s, cut_start)]
    else if cut_start > s ∧ cut_end < e then [(s, cut_start), (cut_end, e)]
    else []

/-- One iteration of the outer `for cut in cuts` loop of
`calculate_keep_segments`: build `new_ranges` by appending, for each keep
range in order, the ranges the cut leaves of it. -/
def applyCut (cut_start cut_end : ℚ) : List (ℚ × ℚ) → List (ℚ × ℚ)
  | [] => []
  | r :: rest => cutRange cut_start cut_end r ++ applyCut cut_start cut_end rest

/-- `calculate_keep_segments(duration, trim_start, trim_end, cut_segments,
target_fps)` from `video_to_gif.py` (lines 130-191).  Cut segments are
`(start, end)` pairs.  Python's `sorted(cut_segments, key=lambda x: x['start'])`
is a stable sort by the `start` component, modelled by `List.insertionSort`
with the relation `a.1 ≤ b.1` (insertion sort is stable, so the two agree). -/
def calculate_keep_segments (duration trim_start : ℚ) (trim_end : Option ℚ)
    (cut_segments : List (ℚ × ℚ)) (target_fps : ℚ) : List (ℚ × ℚ) :=
  let effective_end := trim_end.getD duration
  let ts := if target_fps > 0 then snap_to_frame trim_start target_fps else trim_start
  let ee := if target_fps > 0 then snap_to_frame effective_end target_fps else effective_end
  let cuts := List.insertionSort (fun a b : ℚ × ℚ => a.1 ≤ b.1) cut_segments
  cuts.foldl (fun keep cut =>
    let cs := if target_fps > 0 then snap_to_frame cut.1 target_fps else cut.1
    let ce := if target_fps > 0 then snap_to_frame cut.2 target_fps else cut.2
    applyCut cs ce keep) [(ts, ee)]

example : calculate_keep_segments 20 0 none [(5,8),(15,17)] 0
    = [(0,5),(8,15),(17,20)] := by decide

example : calculate_keep_segments 20 0 none [(0,20)] 0 = [] := by decide

example : calculate_keep_segments 10 0 none [(7,3),(7,8)] 0
    = [(0,7),(3,7),(8,10)] := by decide

example : calculate_keep_segments 10 0 none [(7,8),(7,3)] 0
    = [(0,7),(8,10)] := by decide

/-! ### Invariants of the keep-segment list -/

/-- Every returned segment lies within `[0, duration]` and is nonempty. -/
def IntervalBounded (duration : ℚ) (l : List (ℚ × ℚ)) : Prop :=
  ∀ r ∈ l, 0 ≤ r.1 ∧ r.1 < r.2 ∧ r.2 ≤ duration

/-- The half-open intervals of the list are pairwise disjoint. -/
def SegsDisjoint (l : List (ℚ × ℚ)) : Prop :=
  l.Pairwise (fun a b => a.2 ≤ b.1 ∨ b.2 ≤ a.1)

/-- The list is sorted ascending by segment start. -/
def SegsSortedByStart (l : List (ℚ × ℚ)) : Prop :=
  l.Pairwise (fun a b => a.1 ≤ b.1)

instance (d : ℚ) (l : List (ℚ × ℚ)) : Decidable (IntervalBounded d l) := by
  unfold IntervalBounded; infer_instance

instance (l : List (ℚ × ℚ)) : Decidable (SegsDisjoint l) := by
  unfold SegsDisjoint; infer_instance

instance (l : List (ℚ × ℚ)) : Decidable (SegsSortedByStart l) := by
  unfold SegsSortedByStart; infer_instance

/-- The pieces one cut leaves of a nonempty range stay inside the range and
are nonempty. This holds for arbitrary (even inverted) cuts. -/
lemma cutRange_mem_bounds {cs ce s e : ℚ} (hse : s < e) :
    ∀ p ∈ cutRange cs ce (s, e), s ≤ p.1 ∧ p.1 < p.2 ∧ p.2 ≤ e := by
  intro p hp
  simp only [cutRange] at hp
  split_ifs at hp with h1 h2 h3 h4 <;> push_neg at h1 <;> simp at hp
  · subst hp; exact ⟨le_refl _, hse, le_refl _⟩
  · subst hp; exact ⟨le_of_lt h1.1, h2.2, le_refl _⟩
  · subst hp; exact ⟨le_refl _, h3.1, le_of_lt h1.2⟩
  · rcases hp with hp | hp <;> subst hp
    · exact ⟨le_refl _, h4.1, le_of_lt h1.2⟩
    · exact ⟨le_of_lt h1.1, h4.2, le_refl _⟩

/-- The pieces one (non-inverted) cut leaves of a single range are
pairwise separated. -/
lemma cutRange_pairwise_gap {cs ce s e : ℚ} (hc : cs ≤ ce) :
    (cutRange cs ce (s, e)).Pairwise (fun a b => a.2 ≤ b.1) := by
  simp only [cutRange]
  split_ifs
  all_goals try simp
  exact hc

lemma mem_applyCut {cs ce : ℚ} {l : List (ℚ × ℚ)} {p : ℚ × ℚ} :
    p ∈ applyCut cs ce l ↔ ∃ r ∈ l, p ∈ cutRange cs ce r := by
  induction l with
  | nil => simp [applyCut]
  | cons r rest ih => simp [applyCut, ih]

/-- `applyCut` preserves boundedness, nonemptiness and pairwise gaps,
for any cut with `cut_start ≤ cut_end`. -/
lemma applyCut_preserves_inv {cs ce lo hi : ℚ} {l : List (ℚ × ℚ)} (hc : cs ≤ ce)
    (hb : ∀ r ∈ l, lo ≤ r.1 ∧ r.1 < r.2 ∧ r.2 ≤ hi)
    (hg : l.Pairwise (fun a b => a.2 ≤ b.1)) :
    (∀ r ∈ applyCut cs ce l, lo ≤ r.1 ∧ r.1 < r.2 ∧ r.2 ≤ hi) ∧
      (applyCut cs ce l).Pairwise (fun a b => a.2 ≤ b.1) := by
  induction l with
  | nil => simp [applyCut]
  | cons r rest ih =>
    obtain ⟨hr, hrest⟩ := List.forall_mem_cons.mp hb
    rw [List.pairwise_cons] at hg
    obtain ⟨hgr, hgrest⟩ := hg
    obtain ⟨ihb, ihg⟩ := ih hrest hgrest
    obtain ⟨s, e⟩ := r
    constructor
    · intro p hp
      rw [applyCut, List.mem_append] at hp
      rcases hp with hp | hp
      · obtain ⟨h1, h2, h3⟩ := cutRange_mem_bounds hr.2.1 p hp
        exact ⟨le_trans hr.1 h1, h2, le_trans h3 hr.2.2⟩
      · exact ihb p hp
    · rw [applyCut, List.pairwise_append]
      refine ⟨cutRange_pairwise_gap hc, ihg, ?_⟩
      intro a ha b hb'
      obtain ⟨-, -, ha2⟩ := cutRange_mem_bounds hr.2.1 a ha
      obtain ⟨r', hr', hbr⟩ := mem_applyCut.mp hb'
      have hgap : e ≤ r'.1 := hgr r' hr'
      obtain ⟨s', e'⟩ := r'
      have hb1 : s' ≤ b.1 := (cutRange_mem_bounds (hrest _ hr').2.1 b hbr).1
      calc a.2 ≤ e := ha2
        _ ≤ s' := hgap
        _ ≤ b.1 := hb1

/-! ### The keep list is always sorted ascending by start

Because cuts are processed in ascending order of their (possibly snapped)
start, every range except the last one in the intermediate list has already
"frozen": its end does not exceed the start of any remaining cut, so later
cuts leave it untouched.  This yields sortedness for *arbitrary* inputs. -/

/-- Python's `round` is monotone. -/
lemma pyRound_mono {x y : ℚ} (h : x ≤ y) : pyRound x ≤ pyRound y := by
  have hf : ⌊x⌋ ≤ ⌊y⌋ := Int.floor_le_floor h
  rcases eq_or_lt_of_le hf with heq | hlt
  · unfold pyRound
    rw [← heq]
    split_ifs <;> first | omega | (exfalso; rw [← heq] at *; linarith)
  · unfold pyRound
    split_ifs <;> omega

/-- `snap_to_frame` is monotone in the time argument. -/
lemma snap_to_frame_mono {fps x y : ℚ} (h : x ≤ y) :
    snap_to_frame x fps ≤ snap_to_frame y fps := by
  unfold snap_to_frame
  split_ifs with hf
  · exact h
  · push_neg at hf
    have hpos : (0:ℚ) < 1 / fps := by positivity
    have h1 : x / (1 / fps) ≤ y / (1 / fps) := by gcongr
    exact mul_le_mul_of_nonneg_right (by exact_mod_cast pyRound_mono h1) (le_of_lt hpos)

/-- All but the last range of the list end at or before `c`. -/
def FrozenTo (c : ℚ) : List (ℚ × ℚ) → Prop
  | [] => True
  | [_] => True
  | r :: rest => r.2 ≤ c ∧ FrozenTo c rest

lemma frozenTo_cons_of {c : ℚ} {r : ℚ × ℚ} {rest : List (ℚ × ℚ)}
    (h : r.2 ≤ c) (hrest : FrozenTo c rest) : FrozenTo c (r :: rest) := by
  cases rest with
  | nil => trivial
  | cons r2 rest2 => exact ⟨h, hrest⟩

lemma FrozenTo.mono {b c : ℚ} (hbc : b ≤ c) :
    ∀ {l : List (ℚ × ℚ)}, FrozenTo b l → FrozenTo c l
  | [], _ => trivial
  | [_], _ => trivial
  | _ :: _ :: _, ⟨h1, h2⟩ => ⟨le_trans h1 hbc, FrozenTo.mono hbc h2⟩

/-- A cut whose start is at or after the range's end leaves it unchanged. -/
lemma cutRange_of_end_le {cs ce s e : ℚ} (h : e ≤ cs) :
    cutRange cs ce (s, e) = [(s, e)] := by
  simp only [cutRange]
  rw [if_pos (Or.inr h)]

/-- Every piece a cut leaves of a range starts at or after the range start. -/
lemma cutRange_start_lb {cs ce s e : ℚ} :
    ∀ p ∈ cutRange cs ce (s, e), s ≤ p.1 := by
  intro p hp
  simp only [cutRange] at hp
  split_ifs at hp with h1 h2 h3 h4 <;> push_neg at h1 <;> simp at hp
  · subst hp; exact le_refl _
  · subst hp; exact le_of_lt h1.1
  · subst hp; exact le_refl _
  · rcases hp with hp | hp <;> subst hp
    · exact le_refl _
    · exact le_of_lt h1.1

lemma applyCut_start_lb {cs ce : ℚ} {l : List (ℚ × ℚ)} :
    ∀ p ∈ applyCut cs ce l, ∃ r ∈ l, r.1 ≤ p.1 := by
  intro p hp
  obtain ⟨r, hr, hpr⟩ := mem_applyCut.mp hp
  obtain ⟨s, e⟩ := r
  exact ⟨(s, e), hr, cutRange_start_lb p hpr⟩

/-- The pieces a cut leaves of a single range have strictly increasing
starts (true for arbitrary, even inverted, cuts and ranges). -/
lemma cutRange_sorted (cs ce s e : ℚ) :
    (cutRange cs ce (s, e)).Pairwise (fun a b => a.1 < b.1) := by
  simp only [cutRange]
  split_ifs with h1 h2 h3 h4 <;> try simp
  push_neg at h1
  exact h1.1

/-- The pieces a cut leaves of a single range are frozen to the cut start. -/
lemma cutRange_frozen (cs ce s e : ℚ) : FrozenTo cs (cutRange cs ce (s, e)) := by
  simp only [cutRange]
  split_ifs <;> trivial

/-- Applying a cut to a sorted list frozen to the cut's start keeps it
sorted and frozen to the cut's start. -/
lemma applyCut_sorted_frozen {cs ce : ℚ} :
    ∀ {l : List (ℚ × ℚ)}, l.Pairwise (fun a b => a.1 < b.1) → FrozenTo cs l →
    (applyCut cs ce l).Pairwise (fun a b => a.1 < b.1) ∧
      FrozenTo cs (applyCut cs ce l) := by
  intro l
  induction l with
  | nil => intro _ _; exact ⟨List.Pairwise.nil, trivial⟩
  | cons r rest ih =>
    intro hs hf
    rw [List.pairwise_cons] at hs
    obtain ⟨hsr, hsrest⟩ := hs
    cases rest with
    | nil =>
      obtain ⟨s, e⟩ := r
      have happ : applyCut cs ce [(s, e)] = cutRange cs ce (s, e) := by
        show cutRange cs ce (s, e) ++ applyCut cs ce [] = _
        rw [show applyCut cs ce ([] : List (ℚ × ℚ)) = [] from rfl, List.append_nil]
      rw [happ]
      exact ⟨cutRange_sorted cs ce s e, cutRange_frozen cs ce s e⟩
    | cons r2 rest2 =>
      obtain ⟨hr2, hfrest⟩ : r.2 ≤ cs ∧ FrozenTo cs (r2 :: rest2) := hf
      obtain ⟨ihs, ihf⟩ := ih hsrest hfrest
      obtain ⟨s, e⟩ := r
      have hkeep : applyCut cs ce ((s, e) :: r2 :: rest2)
          = (s, e) :: applyCut cs ce (r2 :: rest2) := by
        show cutRange cs ce (s, e) ++ _ = _
        rw [cutRange_of_end_le hr2]
        rfl
      rw [hkeep]
      constructor
      · rw [List.pairwise_cons]
        refine ⟨?_, ihs⟩
        intro p hp
        obtain ⟨r', hr', hr'p⟩ := applyCut_start_lb p hp
        exact lt_of_lt_of_le (hsr r' hr') hr'p
      · exact frozenTo_cons_of hr2 ihf

/-- Folding cuts, in ascending order of their transformed starts, over a
sorted and suitably frozen list yields a sorted list.  The map `g` is the
per-cut endpoint transformation (frame snapping or the identity). -/
lemma foldCuts_sorted_general (g : ℚ × ℚ → ℚ × ℚ)
    (hg : ∀ c c' : ℚ × ℚ, c.1 ≤ c'.1 → (g c).1 ≤ (g c').1) :
    ∀ (cuts : List (ℚ × ℚ)) (l : List (ℚ × ℚ)) (b : ℚ),
    cuts.Pairwise (fun a c => a.1 ≤ c.1) →
    (∀ c ∈ cuts, b ≤ (g c).1) →
    l.Pairwise (fun a c => a.1 < c.1) → FrozenTo b l →
    (cuts.foldl (fun keep cut => applyCut (g cut).1 (g cut).2 keep) l).Pairwise
      (fun a c => a.1 < c.1) := by
  intro cuts
  induction cuts with
  | nil => intro l b _ _ hs _; exact hs
  | cons c rest ih =>
    intro l b hp hb hs hf
    rw [List.pairwise_cons] at hp
    obtain ⟨hpc, hprest⟩ := hp
    have hf1 : FrozenTo (g c).1 l :=
      FrozenTo.mono (hb c (List.mem_cons_self c rest)) hf
    obtain ⟨hs', hf'⟩ := applyCut_sorted_frozen hs hf1
    exact ih _ (g c).1 hprest (fun c' h => hg c c' (hpc c' h)) hs' hf'

/-- Folding a list of valid cuts over a valid segment list preserves the
invariants. -/
lemma foldCuts_preserves_inv {lo hi : ℚ} :
    ∀ (cuts : List (ℚ × ℚ)) (l : List (ℚ × ℚ)),
    (∀ c ∈ cuts, c.1 ≤ c.2) →
    (∀ r ∈ l, lo ≤ r.1 ∧ r.1 < r.2 ∧ r.2 ≤ hi) →
    l.Pairwise (fun a b => a.2 ≤ b.1) →
    (∀ r ∈ cuts.foldl (fun keep cut => applyCut cut.1 cut.2 keep) l,
        lo ≤ r.1 ∧ r.1 < r.2 ∧ r.2 ≤ hi) ∧
      (cuts.foldl (fun keep cut => applyCut cut.1 cut.2 keep) l).Pairwise
        (fun a b => a.2 ≤ b.1) := by
  intro cuts
  induction cuts with
  | nil => intro l _ hb hg; exact ⟨hb, hg⟩
  | cons c rest ih =>
    intro l hc hb hg
    have hc0 : c.1 ≤ c.2 := hc c (List.mem_cons_self c rest)
    obtain ⟨hb', hg'⟩ := applyCut_preserves_inv hc0 hb hg
    exact ih _ (fun c' h => hc c' (List.mem_cons_of_mem c h)) hb' hg'

/-! ### Claim C3: order independence of the cut list

The cut list is stably sorted by `start` before processing, so two
permutations of the same cuts can differ only in the relative order of
cuts sharing the same `start`.  Applying two cuts with the same start (and
`start ≤ end`) in either order gives the same segment list, which yields
order independence; an inverted cut breaks this (see the counterexample). -/

lemma applyCut_append (cs ce : ℚ) (l1 l2 : List (ℚ × ℚ)) :
    applyCut cs ce (l1 ++ l2) = applyCut cs ce l1 ++ applyCut cs ce l2 := by
  induction l1 with
  | nil => rfl
  | cons r rest ih => simp [applyCut, ih]

lemma applyCut_one (cs ce : ℚ) (r : ℚ × ℚ) :
    applyCut cs ce [r] = cutRange cs ce r := by
  simp [applyCut]

lemma applyCut_two (cs ce : ℚ) (r1 r2 : ℚ × ℚ) :
    applyCut cs ce [r1, r2] = cutRange cs ce r1 ++ cutRange cs ce r2 := by
  simp [applyCut]

/-- Evaluation lemmas for the five cases of `cutRange`. -/
lemma cutRange_keep {cs ce s e : ℚ} (h : ce ≤ s ∨ cs ≥ e) :
    cutRange cs ce (s, e) = [(s, e)] := by
  simp only [cutRange]; rw [if_pos h]

lemma cutRange_left {cs ce s e : ℚ} (hno : ¬(ce ≤ s ∨ cs ≥ e))
    (h1 : cs ≤ s) (h2 : ce < e) : cutRange cs ce (s, e) = [(ce, e)] := by
  simp only [cutRange]; rw [if_neg hno, if_pos ⟨h1, h2⟩]

lemma cutRange_right {cs ce s e : ℚ} (hno : ¬(ce ≤ s ∨ cs ≥ e))
    (h1 : s < cs) (h2 : e ≤ ce) : cutRange cs ce (s, e) = [(s, cs)] := by
  simp only [cutRange]
  rw [if_neg hno, if_neg (by rintro ⟨ha, hb⟩; linarith), if_pos ⟨h1, h2⟩]

lemma cutRange_split {cs ce s e : ℚ} (hno : ¬(ce ≤ s ∨ cs ≥ e))
    (h1 : s < cs) (h2 : ce < e) : cutRange cs ce (s, e) = [(s, cs), (ce, e)] := by
  simp only [cutRange]
  rw [if_neg hno, if_neg (by rintro ⟨ha, hb⟩; linarith),
    if_neg (by rintro ⟨ha, hb⟩; linarith), if_pos ⟨h1, h2⟩]

lemma cutRange_drop {cs ce s e : ℚ} (hno : ¬(ce ≤ s ∨ cs ≥ e))
    (h1 : cs ≤ s) (h2 : e ≤ ce) : cutRange cs ce (s, e) = [] := by
  simp only [cutRange]
  rw [if_neg hno, if_neg (by rintro ⟨ha, hb⟩; linarith),
    if_neg (by rintro ⟨ha, hb⟩; linarith), if_neg (by rintro ⟨ha, hb⟩; linarith)]

/-- Subtracting `[a, b1)` and then `[a, b2)` with `b1 < b2` is the same as
subtracting `[a, b2)` alone. -/
lemma comm_helper_L1 {a b1 b2 s e : ℚ} (hab1 : a ≤ b1) (hlt : b1 < b2) :
    applyCut a b2 (cutRange a b1 (s, e)) = cutRange a b2 (s, e) := by
  by_cases h1 : b1 ≤ s ∨ a ≥ e
  · rw [cutRange_keep h1, applyCut_one]
  · push_neg at h1
    obtain ⟨hb1s, hae⟩ := h1
    have hno2 : ¬(b2 ≤ s ∨ a ≥ e) := by push_neg; exact ⟨by linarith, hae⟩
    by_cases h2 : a ≤ s
    · by_cases h3 : b1 < e
      · rw [cutRange_left (by push_neg; exact ⟨hb1s, hae⟩) h2 h3, applyCut_one]
        by_cases h4 : b2 < e
        · rw [cutRange_left (by push_neg; exact ⟨hlt, hae⟩) hab1 h4,
            cutRange_left hno2 h2 h4]
        · push_neg at h4
          rw [cutRange_drop (by push_neg; exact ⟨hlt, hae⟩) hab1 h4,
            cutRange_drop hno2 h2 h4]
      · push_neg at h3
        rw [cutRange_drop (by push_neg; exact ⟨hb1s, hae⟩) h2 h3,
          cutRange_drop hno2 h2 (by linarith)]
        rfl
    · push_neg at h2
      by_cases h3 : b1 < e
      · rw [cutRange_split (by push_neg; exact ⟨hb1s, hae⟩) h2 h3, applyCut_two,
          cutRange_keep (Or.inr (le_refl a))]
        by_cases h4 : b2 < e
        · rw [cutRange_left (by push_neg; exact ⟨hlt, hae⟩) hab1 h4,
            cutRange_split hno2 h2 h4]
          rfl
        · push_neg at h4
          rw [cutRange_drop (by push_neg; exact ⟨hlt, hae⟩) hab1 h4,
            cutRange_right hno2 h2 h4]
          rfl
      · push_neg at h3
        rw [cutRange_right (by push_neg; exact ⟨hb1s, hae⟩) h2 h3, applyCut_one,
          cutRange_keep (Or.inr (le_refl a)), cutRange_right hno2 h2 (by linarith)]

/-- Subtracting `[a, b2)` and then the smaller `[a, b1)` (with `b1 < b2`)
changes nothing beyond the first subtraction. -/
lemma comm_helper_L2 {a b1 b2 s e : ℚ} (hlt : b1 < b2) :
    applyCut a b1 (cutRange a b2 (s, e)) = cutRange a b2 (s, e) := by
  by_cases h1 : b2 ≤ s ∨ a ≥ e
  · rw [cutRange_keep h1, applyCut_one]
    rcases h1 with h | h
    · exact cutRange_keep (Or.inl (by linarith))
    · exact cutRange_keep (Or.inr h)
  · push_neg at h1
    obtain ⟨hsb2, hae⟩ := h1
    by_cases h2 : a ≤ s
    · by_cases h4 : b2 < e
      · rw [cutRange_left (by push_neg; exact ⟨hsb2, hae⟩) h2 h4, applyCut_one,
          cutRange_keep (Or.inl (le_of_lt hlt))]
      · push_neg at h4
        rw [cutRange_drop (by push_neg; exact ⟨hsb2, hae⟩) h2 h4]
        rfl
    · push_neg at h2
      by_cases h4 : b2 < e
      · rw [cutRange_split (by push_neg; exact ⟨hsb2, hae⟩) h2 h4, applyCut_two,
          cutRange_keep (Or.inr (le_refl a)),
          cutRange_keep (Or.inl (le_of_lt hlt))]
        rfl
      · push_neg at h4
        rw [cutRange_right (by push_neg; exact ⟨hsb2, hae⟩) h2 h4, applyCut_one,
          cutRange_keep (Or.inr (le_refl a))]

/-- Two cuts with the same start, each with `start ≤ end`, commute on a
single range. -/
lemma cutRange_comm_eq_start (a b1 b2 s e : ℚ) (h1 : a ≤ b1) (h2 : a ≤ b2) :
    applyCut a b2 (cutRange a b1 (s, e)) = applyCut a b1 (cutRange a b2 (s, e)) := by
  rcases lt_trichotomy b1 b2 with h | h | h
  · rw [comm_helper_L1 h1 h, comm_helper_L2 h]
  · subst h; rfl
  · rw [comm_helper_L2 h, comm_helper_L1 h2 h]

/-- Equal-start commutation lifted to whole segment lists. -/
lemma applyCut_comm_eq_start (a b1 b2 : ℚ) (h1 : a ≤ b1) (h2 : a ≤ b2) :
    ∀ l : List (ℚ × ℚ),
      applyCut a b2 (applyCut a b1 l) = applyCut a b1 (applyCut a b2 l) := by
  intro l
  induction l with
  | nil => rfl
  | cons r rest ih =>
    obtain ⟨s, e⟩ := r
    show applyCut a b2 (cutRange a b1 (s, e) ++ applyCut a b1 rest)
        = applyCut a b1 (cutRange a b2 (s, e) ++ applyCut a b2 rest)
    rw [applyCut_append, applyCut_append, ih, cutRange_comm_eq_start a b1 b2 s e h1 h2]

/-- A fold's head element can be moved across a prefix of elements it
commutes with. -/
lemma foldl_move_head {α β : Type} (f : β → α → β) :
    ∀ (u : List α) (x : α) (v : List α) (init : β),
    (∀ y ∈ u, ∀ b, f (f b y) x = f (f b x) y) →
    List.foldl f init (u ++ x :: v) = List.foldl f (f init x) (u ++ v) := by
  intro u
  induction u with
  | nil => intro x v init _; rfl
  | cons y u2 ih =>
    intro x v init hcomm
    show List.foldl f (f init y) (u2 ++ x :: v) = List.foldl f (f (f init x) y) (u2 ++ v)
    rw [ih x v (f init y) (fun z hz b => hcomm z (List.mem_cons_of_mem y hz) b),
      hcomm y (List.mem_cons_self y u2) init]

/-- Two sorted-by-start permutations of a valid cut list fold to the same
result, given commutation of equal-start steps. -/
lemma foldl_eq_of_perm_sorted {β : Type} (f : β → ℚ × ℚ → β)
    (hcomm : ∀ c d : ℚ × ℚ, c.1 = d.1 → c.1 ≤ c.2 → d.1 ≤ d.2 →
      ∀ b, f (f b c) d = f (f b d) c) :
    ∀ (s1 s2 : List (ℚ × ℚ)) (init : β), s1.Perm s2 →
    s1.Pairwise (fun a b => a.1 ≤ b.1) → s2.Pairwise (fun a b => a.1 ≤ b.1) →
    (∀ c ∈ s1, c.1 ≤ c.2) →
    List.foldl f init s1 = List.foldl f init s2 := by
  intro s1
  induction s1 with
  | nil =>
    intro s2 init hperm _ _ _
    rw [List.Perm.eq_nil hperm.symm]
  | cons x t1 ih =>
    intro s2 init hperm hs1 hs2 hvalid
    have hx2 : x ∈ s2 := hperm.subset (List.mem_cons_self x t1)
    obtain ⟨u, v, rfl⟩ := List.append_of_mem hx2
    have hkey : ∀ y ∈ u, y.1 = x.1 := by
      intro y hy
      have hyx : y.1 ≤ x.1 :=
        (List.pairwise_append.mp hs2).2.2 y hy x (List.mem_cons_self x v)
      have hxy : x.1 ≤ y.1 := by
        have hy1 : y ∈ x :: t1 := hperm.symm.subset (List.mem_append_left _ hy)
        rcases List.mem_cons.mp hy1 with h | h
        · rw [h]
        · exact (List.pairwise_cons.mp hs1).1 y h
      exact le_antisymm hyx hxy
    have hmove : List.foldl f init (u ++ x :: v) = List.foldl f (f init x) (u ++ v) := by
      apply foldl_move_head
      intro y hy b
      exact hcomm y x (hkey y hy)
        (hvalid y (hperm.symm.subset (List.mem_append_left _ hy)))
        (hvalid x (List.mem_cons_self x t1)) b
    rw [hmove]
    have hperm2 : t1.Perm (u ++ v) := (hperm.trans List.perm_middle).cons_inv
    have hsub : (u ++ v).Sublist (u ++ x :: v) :=
      List.Sublist.append_left ((List.Sublist.refl v).cons x) u
    exact ih (u ++ v) (f init x) hperm2 (List.pairwise_cons.mp hs1).2
      (hs2.sublist hsub) (fun c hc => hvalid c (List.mem_cons_of_mem x hc))

/-- The cut list, after the stable sort by start, is sorted by start. -/
lemma insertionSort_by_start_sorted (l : List (ℚ × ℚ)) :
    (List.insertionSort (fun a b : ℚ × ℚ => a.1 ≤ b.1) l).Pairwise
      (fun a b : ℚ × ℚ => a.1 ≤ b.1) := by
  haveI : IsTotal (ℚ × ℚ) (fun a b : ℚ × ℚ => a.1 ≤ b.1) :=
    ⟨fun a b => le_total a.1 b.1⟩
  haveI : IsTrans (ℚ × ℚ) (fun a b : ℚ × ℚ => a.1 ≤ b.1) :=
    ⟨fun _ _ _ => le_trans⟩
  exact List.sorted_insertionSort _ l


/-! ### Claim C3 -/

/-- C3, counterexample: with an inverted cut sharing its start with another
cut, reordering the cut list changes the output.  The lists
`[(7,3),(7,8)]` and `[(7,8),(7,3)]` are permutations of each other, yet on
a 10-second video (trim `[0,10)`, no snapping) they produce
`[(0,7),(3,7),(8,10)]` and `[(0,7),(8,10)]` respectively. -/
theorem C3_counterexample :
    ([((7:ℚ), (3:ℚ)), (7, 8)]).Perm [((7:ℚ), (8:ℚ)), (7, 3)] ∧
    calculate_keep_segments 10 0 none [(7, 3), (7, 8)] 0
      ≠ calculate_keep_segments 10 0 none [(7, 8), (7, 3)] 0 :=
  ⟨List.Perm.swap _ _ _, by decide⟩

/-- C3 (amended): provided every cut segment satisfies `start ≤ end`,
calling `calculate_keep_segments` with any permutation of the cut list —
for every duration, trim range and frame rate — yields the identical
output list. -/
theorem C3_cut_order_independence (duration trim_start : ℚ) (trim_end : Option ℚ)
    (target_fps : ℚ) (l1 l2 : List (ℚ × ℚ)) (hperm : l1.Perm l2)
    (hvalid : ∀ c ∈ l1, c.1 ≤ c.2) :
    calculate_keep_segments duration trim_start trim_end l1 target_fps =
      calculate_keep_segments duration trim_start trim_end l2 target_fps := by
  simp only [calculate_keep_segments]
  apply foldl_eq_of_perm_sorted
  · intro c d hcd hc1 hd1 b
    dsimp only
    have hstart : (if target_fps > 0 then snap_to_frame d.1 target_fps else d.1)
        = (if target_fps > 0 then snap_to_frame c.1 target_fps else c.1) := by
      rw [hcd]
    have hcv : (if target_fps > 0 then snap_to_frame c.1 target_fps else c.1)
        ≤ (if target_fps > 0 then snap_to_frame c.2 target_fps else c.2) := by
      split_ifs
      · exact snap_to_frame_mono hc1
      · exact hc1
    have hdv : (if target_fps > 0 then snap_to_frame d.1 target_fps else d.1)
        ≤ (if target_fps > 0 then snap_to_frame d.2 target_fps else d.2) := by
      split_ifs
      · exact snap_to_frame_mono hd1
      · exact hd1
    rw [hstart] at hdv ⊢
    exact applyCut_comm_eq_start _ _ _ hcv hdv b
  · exact (List.perm_insertionSort _ l1).trans
      (hperm.trans (List.perm_insertionSort _ l2).symm)
  · exact insertionSort_by_start_sorted l1
  · exact insertionSort_by_start_sorted l2
  · intro c hc
    exact hvalid c ((List.perm_insertionSort _ l1).subset hc)

/-- Witness for C3 (amended): swapping two valid cuts does not change the
result. -/
theorem C3_cut_order_independence_witness :
    (([((15:ℚ), (17:ℚ)), (5, 8)]).Perm [((5:ℚ), (8:ℚ)), (15, 17)] ∧
      (∀ c ∈ [((15:ℚ), (17:ℚ)), (5, 8)], c.1 ≤ c.2)) ∧
    calculate_keep_segments 20 0 none [(15, 17), (5, 8)] 0
      = calculate_keep_segments 20 0 none [(5, 8), (15, 17)] 0 :=
  ⟨⟨List.Perm.swap _ _ _, by decide⟩,
    C3_cut_order_independence 20 0 none 0 _ _ (List.Perm.swap _ _ _) (by decide)⟩

/-- For arbitrary inputs — any trim values, any (even degenerate or
inverted) cut segments, any frame rate — the list produced by
`calculate_keep_segments` has strictly increasing segment starts. -/
theorem keep_segments_sorted_univ (duration trim_start : ℚ) (trim_end : Option ℚ)
    (cut_segments : List (ℚ × ℚ)) (target_fps : ℚ) :
    (calculate_keep_segments duration trim_start trim_end cut_segments
        target_fps).Pairwise (fun a b => a.1 < b.1) := by
  simp only [calculate_keep_segments]
  set g : ℚ × ℚ → ℚ × ℚ := fun cut =>
    ((if target_fps > 0 then snap_to_frame cut.1 target_fps else cut.1),
     (if target_fps > 0 then snap_to_frame cut.2 target_fps else cut.2)) with hgdef
  have hg : ∀ c c' : ℚ × ℚ, c.1 ≤ c'.1 → (g c).1 ≤ (g c').1 := by
    intro c c' h
    simp only [hgdef]
    split_ifs
    · exact snap_to_frame_mono h
    · exact h
  have hsorted := insertionSort_by_start_sorted cut_segments
  cases hcuts : List.insertionSort (fun a b : ℚ × ℚ => a.1 ≤ b.1) cut_segments with
  | nil => simp [hcuts]
  | cons c0 crest =>
    rw [hcuts] at hsorted
    have := foldCuts_sorted_general g hg (c0 :: crest)
      [((if target_fps > 0 then snap_to_frame trim_start target_fps else trim_start),
        (if target_fps > 0 then snap_to_frame (trim_end.getD duration) target_fps
         else trim_end.getD duration))]
      ((g c0).1) hsorted ?_ (List.pairwise_singleton _ _) trivial
    · exact this
    · intro c hc
      rcases List.mem_cons.mp hc with h | h
      · subst h; exact le_refl _
      · exact hg c0 c ((List.pairwise_cons.mp hsorted).1 c h)

/-! ### Claim C1 -/

/-- C1, counterexample: `calculate_keep_segments` performs no validation of
the trim range or the cut segments, so with `trim_start = -1`,
`trim_end = 12` and the inverted cut `(7, 3)` on a 10-second video it
returns `[(-1, 7), (3, 12)]`: the first segment starts below `0`, the
second ends beyond the duration, and the two half-open intervals overlap
on `(3, 7)`, so they are not pairwise disjoint. -/
theorem C1_counterexample :
    calculate_keep_segments 10 (-1) (some 12) [(7, 3)] 0 = [(-1, 7), (3, 12)] ∧
    ¬ (IntervalBounded 10 (calculate_keep_segments 10 (-1) (some 12) [(7, 3)] 0) ∧
       SegsDisjoint (calculate_keep_segments 10 (-1) (some 12) [(7, 3)] 0) ∧
       SegsSortedByStart (calculate_keep_segments 10 (-1) (some 12) [(7, 3)] 0)) := by
  decide

/-- C1 (amended): provided the trim window is valid
(`0 ≤ trim_start < effective_end ≤ duration`, where `effective_end` is
`trim_end` or, when absent, `duration`) and every cut satisfies
`start ≤ end`, every segment returned by `calculate_keep_segments`
(with no frame snapping, `target_fps = 0`) satisfies
`0 ≤ start < end ≤ duration`, the segments are pairwise disjoint, and the
list is sorted ascending by start. -/
theorem C1_keep_segments_invariants (duration trim_start : ℚ) (trim_end : Option ℚ)
    (cut_segments : List (ℚ × ℚ))
    (h0 : 0 ≤ trim_start)
    (hlt : trim_start < trim_end.getD duration)
    (hhi : trim_end.getD duration ≤ duration)
    (hcuts : ∀ c ∈ cut_segments, c.1 ≤ c.2) :
    IntervalBounded duration
      (calculate_keep_segments duration trim_start trim_end cut_segments 0) ∧
    SegsDisjoint (calculate_keep_segments duration trim_start trim_end cut_segments 0) ∧
    SegsSortedByStart
      (calculate_keep_segments duration trim_start trim_end cut_segments 0) := by
  have hsortedlt := keep_segments_sorted_univ duration trim_start trim_end cut_segments 0
  have key : (∀ r ∈ calculate_keep_segments duration trim_start trim_end cut_segments 0,
      0 ≤ r.1 ∧ r.1 < r.2 ∧ r.2 ≤ duration) ∧
      (calculate_keep_segments duration trim_start trim_end cut_segments 0).Pairwise
        (fun a b => a.2 ≤ b.1) := by
    simp only [calculate_keep_segments, gt_iff_lt, lt_self_iff_false, if_false]
    apply foldCuts_preserves_inv
    · intro c hcmem
      exact hcuts c ((List.perm_insertionSort _ cut_segments).subset hcmem)
    · intro r hr
      rw [List.mem_singleton] at hr
      subst hr
      exact ⟨h0, hlt, hhi⟩
    · exact List.pairwise_singleton _ _
  refine ⟨key.1, ?_, ?_⟩
  · exact key.2.imp (fun h => Or.inl h)
  · exact hsortedlt.imp le_of_lt

/-- Witness for C1 (amended) at duration 20, trim `[0, 20)`, cuts
`{5,8}` and `{15,17}`. -/
theorem C1_keep_segments_invariants_witness :
    ((0:ℚ) ≤ 0 ∧ (0:ℚ) < (Option.getD none 20) ∧ (Option.getD none (20:ℚ)) ≤ 20 ∧
      (∀ c ∈ [((5:ℚ),(8:ℚ)),(15,17)], c.1 ≤ c.2)) ∧
    (IntervalBounded 20 (calculate_keep_segments 20 0 none [(5,8),(15,17)] 0) ∧
     SegsDisjoint (calculate_keep_segments 20 0 none [(5,8),(15,17)] 0) ∧
     SegsSortedByStart (calculate_keep_segments 20 0 none [(5,8),(15,17)] 0)) :=
  ⟨⟨by norm_num, by norm_num, by norm_num, by decide⟩,
    C1_keep_segments_invariants 20 0 none [(5,8),(15,17)]
      (by norm_num) (by norm_num) (by norm_num) (by decide)⟩

/-! ### Claim C2 -/

/-- C2: `calculate_keep_segments` implements the five-case subtraction on
each keep range — a cut outside the range keeps it, a cut overlapping its
start yields `[cut_end, e)`, a cut overlapping its end yields
`[s, cut_start)`, a cut strictly inside splits it, and a covering cut drops
it — and on duration 20 with trim `[0, 20)` and cuts `{5,8}`, `{15,17}`
(no frame snapping) the result is exactly `[(0,5),(8,15),(17,20)]`. -/
theorem C2_five_case_subtraction :
    (∀ cs ce s e : ℚ, (ce ≤ s ∨ cs ≥ e) → cutRange cs ce (s, e) = [(s, e)]) ∧
    (∀ cs ce s e : ℚ, ¬(ce ≤ s ∨ cs ≥ e) → cs ≤ s → ce < e →
      cutRange cs ce (s, e) = [(ce, e)]) ∧
    (∀ cs ce s e : ℚ, ¬(ce ≤ s ∨ cs ≥ e) → cs > s → ce ≥ e →
      cutRange cs ce (s, e) = [(s, cs)]) ∧
    (∀ cs ce s e : ℚ, ¬(ce ≤ s ∨ cs ≥ e) → cs > s → ce < e →
      cutRange cs ce (s, e) = [(s, cs), (ce, e)]) ∧
    (∀ cs ce s e : ℚ, ¬(ce ≤ s ∨ cs ≥ e) → cs ≤ s → ce ≥ e →
      cutRange cs ce (s, e) = []) ∧
    calculate_keep_segments 20 0 none [(5, 8), (15, 17)] 0
      = [(0, 5), (8, 15), (17, 20)] := by
  refine ⟨?_, ?_, ?_, ?_, ?_, by decide⟩ <;>
    (intro cs ce s e h1; simp only [cutRange])
  · rw [if_pos h1]
  · intro h2 h3
    rw [if_neg h1, if_pos ⟨h2, h3⟩]
  · intro h2 h3
    push_neg at h1
    rw [if_neg (by push_neg; exact h1), if_neg (by rintro ⟨ha, hb⟩; linarith),
      if_pos ⟨h2, h3⟩]
  · intro h2 h3
    push_neg at h1
    rw [if_neg (by push_neg; exact h1), if_neg (by rintro ⟨ha, hb⟩; linarith),
      if_neg (by rintro ⟨ha, hb⟩; linarith), if_pos ⟨h2, h3⟩]
  · intro h2 h3
    push_neg at h1
    rw [if_neg (by push_neg; exact h1), if_neg (by rintro ⟨ha, hb⟩; linarith),
      if_neg (by rintro ⟨ha, hb⟩; linarith), if_neg (by rintro ⟨ha, hb⟩; linarith)]

/-- Witness for C2: instantiating the middle-split case at a concrete
input. -/
theorem C2_five_case_subtraction_witness :
    (¬((8:ℚ) ≤ 0 ∨ (5:ℚ) ≥ 20) ∧ (5:ℚ) > 0 ∧ (8:ℚ) < 20) ∧
      cutRange 5 8 (0, 20) = [(0, 5), (8, 20)] :=
  ⟨⟨by norm_num, by norm_num, by norm_num⟩,
    C2_five_case_subtraction.2.2.2.1 5 8 0 20 (by norm_num) (by norm_num) (by norm_num)⟩


/-! ## Numeric string formatting

The scripts pass numbers to the encoder as strings.  `video_to_gif.py`
formats times with the fixed-point format `f'{x:.6f}'`;
`video_splitter_batch.py` passes `str(start_time)` and `str(duration)`.
Python distinguishes ints from floats when printing, so numbers are
modelled by a small sum type. -/

/-- A Python number: an `int` or a `float` (the float's exact value). -/
inductive PyNum where
  | int (n : ℤ)
  | float (q : ℚ)
  deriving DecidableEq

/-- The numeric value of a `PyNum`. -/
def PyNum.toQ : PyNum → ℚ
  | .int n => (n : ℚ)
  | .float q => q

/-- Python `int(x)`: the identity on ints, truncation toward zero on
floats. -/
def PyNum.trunc : PyNum → ℤ
  | .int n => n
  | .float q => if q < 0 then ⌈q⌉ else ⌊q⌋

/-- Multiplication `i * x` of a Python int by a Python number, as in
`start_time = i * segment_duration`: int times int is an int, int times
float is a float. -/
def PyNum.mulNat (x : PyNum) (i : ℕ) : PyNum :=
  match x with
  | .int n => .int (i * n)
  | .float q => .float (i * q)

/-- The `k` low decimal digits of `n`, most significant first, zero
padded. -/
def fracDigits : ℕ → ℕ → List Char
  | 0, _ => []
  | k + 1, n => fracDigits k (n / 10) ++ [Nat.digitChar (n % 10)]

/-- Python's fixed-point format `f'{x:.kf}'` for a nonnegative exact
value: round half-to-even at `k` decimals, print the integer part, a
point, and exactly `k` fractional digits. -/
def pyFixedNonneg (k : ℕ) (q : ℚ) : String :=
  toString ((pyRound (q * 10 ^ k)).toNat / 10 ^ k) ++ "." ++
    String.mk (fracDigits k (pyRound (q * 10 ^ k)).toNat)

/-- Python's fixed-point format `f'{x:.kf}'` on an exact value. -/
def pyFixed (k : ℕ) (q : ℚ) : String :=
  if q < 0 then "-" ++ pyFixedNonneg k (-q) else pyFixedNonneg k q

/-- Python's `str()` of a nonnegative float, modelled for values whose
exact decimal expansion terminates within 17 digits (shortest decimal
form, with at least one fractional digit).  CPython prints the shortest
decimal that round-trips; for the short exact values handled here the two
agree. -/
def pyFloatStrNonneg (q : ℚ) : String :=
  let k := max 1 ((((List.range 17).find? (fun k => (q * 10 ^ k).den = 1)).getD 16))
  let n := (q * 10 ^ k).num.toNat
  toString (n / 10 ^ k) ++ "." ++ String.mk (fracDigits k n)

/-- Python's `str()` of a float (see `pyFloatStrNonneg`). -/
def pyFloatStr (q : ℚ) : String :=
  if q < 0 then "-" ++ pyFloatStrNonneg (-q) else pyFloatStrNonneg q

/-- Python's `str()` of a `PyNum`: ints print without a decimal point,
floats with one. -/
def pyStr : PyNum → String
  | .int n => toString n
  | .float q => pyFloatStr q

/-- The number of characters after the last `.` of a string, when the
string contains one. -/
def decimalsAfterDot (s : String) : Option ℕ :=
  if '.' ∈ s.data then
    some (s.data.reverse.takeWhile (fun c => c ≠ '.')).length
  else none

example : pyStr (.int 0) = "0" := rfl
example : pyStr (.int 60) = "60" := rfl
example : decimalsAfterDot "0.0" = some 1 := by decide
example : decimalsAfterDot "2.500000" = some 6 := by decide
example : decimalsAfterDot "0" = none := by decide

lemma fracDigits_length (k n : ℕ) : (fracDigits k n).length = k := by
  induction k generalizing n with
  | zero => rfl
  | succ k ih => simp [fracDigits, ih]

lemma digitChar_ne_dot {m : ℕ} (h : m < 10) : Nat.digitChar m ≠ '.' := by
  interval_cases m <;> decide

lemma fracDigits_ne_dot (k n : ℕ) : ∀ c ∈ fracDigits k n, c ≠ '.' := by
  induction k generalizing n with
  | zero => intro c hc; simp [fracDigits] at hc
  | succ k ih =>
    intro c hc
    simp only [fracDigits, List.mem_append, List.mem_singleton] at hc
    rcases hc with hc | hc
    · exact ih _ c hc
    · subst hc; exact digitChar_ne_dot (Nat.mod_lt _ (by norm_num))

lemma takeWhile_ne_dot (D Z : List Char) (hD : ∀ c ∈ D, c ≠ '.') :
    (D ++ '.' :: Z).takeWhile (fun c => c ≠ '.') = D := by
  induction D with
  | nil => simp
  | cons c D2 ih =>
    have hc : c ≠ '.' := hD c (List.mem_cons_self _ _)
    simp only [List.cons_append, List.takeWhile_cons]
    rw [if_pos (by simpa using hc), ih (fun x hx => hD x (List.mem_cons_of_mem _ hx))]

/-- A string of the form `X.D` with `D` dot-free has `D.length` characters
after its last dot. -/
lemma decimalsAfterDot_shape (s : String) (X D : List Char)
    (hs : s.data = X ++ '.' :: D) (hD : ∀ c ∈ D, c ≠ '.') :
    decimalsAfterDot s = some D.length := by
  unfold decimalsAfterDot
  rw [hs, if_pos (by simp)]
  have hrev : (X ++ '.' :: D).reverse = D.reverse ++ '.' :: X.reverse := by simp
  rw [hrev, takeWhile_ne_dot _ _ (fun c hc => hD c (List.mem_reverse.mp hc)),
    List.length_reverse]

lemma data_concat_dot (a : String) (l : List Char) :
    (a ++ "." ++ String.mk l).data = a.data ++ '.' :: l := by
  rw [String.data_append, String.data_append]
  rw [show (".".data) = ['.'] from rfl]
  simp

/-- Python's `.kf` fixed-point format always prints exactly `k` digits
after the decimal point. -/
theorem pyFixed_decimals (k : ℕ) (q : ℚ) :
    decimalsAfterDot (pyFixed k q) = some k := by
  unfold pyFixed pyFixedNonneg
  split_ifs with h
  · have hshape : (("-" : String) ++
        (toString ((pyRound (-q * 10 ^ k)).toNat / 10 ^ k) ++ "." ++
          String.mk (fracDigits k (pyRound (-q * 10 ^ k)).toNat))).data
        = ('-' :: (toString ((pyRound (-q * 10 ^ k)).toNat / 10 ^ k)).data)
          ++ '.' :: fracDigits k (pyRound (-q * 10 ^ k)).toNat := by
      rw [String.data_append, data_concat_dot]
      rfl
    rw [decimalsAfterDot_shape _ _ _ hshape (fracDigits_ne_dot _ _),
      fracDigits_length]
  · rw [decimalsAfterDot_shape _ _ _ (data_concat_dot _ _) (fracDigits_ne_dot _ _),
      fracDigits_length]

/-! ## Path helpers

Minimal models of `pathlib.Path(p).name` / `.stem` / `.suffix` and
`'{i:03d}'` padding, for ordinary file paths. -/

/-- Split a character list on a separator character. -/
def splitOnChar (c : Char) : List Char → List (List Char)
  | [] => [[]]
  | x :: rest =>
    let r := splitOnChar c rest
    if x = c then [] :: r
    else (x :: r.headD []) :: r.tail

/-- `Path(p).name`: the component after the last `/`. -/
def pathName (p : String) : String :=
  String.mk ((splitOnChar '/' p.data).getLastD [])

/-- The position of the last `.` of a character list, if any. -/
def lastDotIdx (cs : List Char) : Option ℕ :=
  ((List.range cs.length).filter (fun i => cs.getD i ' ' = '.')).getLast?

/-- `Path(p).stem`: the name up to its last `.`, when that dot is neither
leading nor trailing. -/
def stemOf (p : String) : String :=
  let nm := pathName p
  match lastDotIdx nm.data with
  | none => nm
  | some i => if 0 < i ∧ i < nm.data.length - 1 then String.mk (nm.data.take i) else nm

/-- `Path(p).suffix`: the last `.` of the name and what follows, when that
dot is neither leading nor trailing. -/
def suffixOf (p : String) : String :=
  let nm := pathName p
  match lastDotIdx nm.data with
  | none => ""
  | some i => if 0 < i ∧ i < nm.data.length - 1 then String.mk (nm.data.drop i) else ""

/-- Python's `'{n:03d}'`: decimal, zero padded to width 3. -/
def pad3 (n : ℕ) : String :=
  if n < 10 then "00" ++ toString n
  else if n < 100 then "0" ++ toString n
  else toString n

example : pathName "/a/b/video.mp4" = "video.mp4" := by decide
example : stemOf "/a/b/video.mp4" = "video" := by decide
example : suffixOf "/a/b/video.mp4" = ".mp4" := by decide
example : pad3 7 = "007" := by decide
example : pad3 123 = "123" := by decide

/-! ## `video_to_gif.py` — the per-file pipeline

`process_video_to_gif` (lines 220-410) is modelled as a pure function of
the configuration and an environment of oracles for its effects: the
`ffprobe` metadata lookup, each `subprocess.run` of ffmpeg (exit code and
stderr), and `os.path.getsize`.  Its observable output is the result
dictionary, the emitted events, the ffmpeg commands it actually executed
(in order), and the files it wrote (the concat manifest). -/

/-- Outcome of one `subprocess.run`. -/
structure RunResult where
  returncode : ℤ
  stderr : String := ""
  stdout : String := ""
  deriving DecidableEq

/-- The metadata `probe_video` extracts (lines 94-118). -/
structure ProbeInfo where
  width : ℤ
  height : ℤ
  duration : ℚ
  deriving DecidableEq

/-- Effect oracles for one `process_video_to_gif` call. -/
structure GifEnv where
  probe : String → Option ProbeInfo
  run : List String → RunResult
  getsize : String → ℕ
  absDir : String → String
  tempDir : String

/-- The `resolution` configuration dictionary (optional keys). -/
structure ResolutionConfig where
  mode : Option String := none
  scalePercent : Option ℚ := none
  width : Option ℤ := none
  height : Option ℤ := none
  deriving DecidableEq

/-- The gif `config` dictionary, with the defaults `config.get` applies
(lines 236-244). -/
structure GifConfig where
  resolution : ResolutionConfig := {}
  frame_rate : PyNum := .int 15
  speed_multiplier : ℚ := 1
  loop_count : ℤ := 0
  dither_method : String := "floyd_steinberg"
  color_count : ℤ := 256
  trim_start : ℚ := 0
  trim_end : Option ℚ := none
  cut_segments : List (ℚ × ℚ) := []
  deriving DecidableEq

/-- Python `int(x)` on a float value: truncation toward zero. -/
def pyTrunc (q : ℚ) : ℤ := if q < 0 then ⌈q⌉ else ⌊q⌋

/-- `build_scale_filter` (lines 194-217). -/
def build_scale_filter (rc : ResolutionConfig) (source_width source_height : ℤ) :
    String :=
  let mode := rc.mode.getD "original"
  if mode = "original" then
    "scale=" ++ toString source_width ++ ":" ++ toString source_height
  else if mode = "scale" then
    let percent := rc.scalePercent.getD 50 / 100
    let w := pyTrunc (source_width * percent)
    let h := pyTrunc (source_height * percent)
    let w := if w % 2 = 0 then w else w + 1
    let h := if h % 2 = 0 then h else h + 1
    "scale=" ++ toString w ++ ":" ++ toString h
  else if mode = "width" then
    "scale=" ++ toString (rc.width.getD 480) ++ ":-2"
  else if mode = "custom" then
    "scale=" ++ toString (rc.width.getD 640) ++ ":" ++ toString (rc.height.getD 480)
  else
    "scale=" ++ toString source_width ++ ":" ++ toString source_height

/-- `format_file_size` (lines 413-419): repeated exact division by 1024,
formatted with one decimal digit. -/
def format_file_size (size_bytes : ℕ) : String :=
  if (size_bytes : ℚ) < 1024 then pyFixed 1 (size_bytes : ℚ) ++ " B"
  else if (size_bytes : ℚ) / 1024 < 1024 then pyFixed 1 ((size_bytes : ℚ) / 1024) ++ " KB"
  else if (size_bytes : ℚ) / 1024 ^ 2 < 1024 then
    pyFixed 1 ((size_bytes : ℚ) / 1024 ^ 2) ++ " MB"
  else if (size_bytes : ℚ) / 1024 ^ 3 < 1024 then
    pyFixed 1 ((size_bytes : ℚ) / 1024 ^ 3) ++ " GB"
  else pyFixed 1 ((size_bytes : ℚ) / 1024 ^ 4) ++ " TB"

/-- Per-file result dictionary of `process_video_to_gif`. -/
structure GifResult where
  success : Bool
  file : String
  output : Option String := none
  size : Option String := none
  error : Option String := none
  deriving DecidableEq

/-- Events the gif script emits. -/
inductive GifEvent where
  | start (total_files : ℕ) (ffmpeg_path : String)
  | progress (current_file total_files : ℕ) (filename : String)
  | fileStart (file path : String)
  | fileError (file error : String)
  | fileComplete (file : String) (output size : String)
  | complete (total_files successful failed : ℕ) (results : List GifResult)
  | errorEvent (message : String)
  deriving DecidableEq

/-- The temp-file path `segment_{i:03d}.mp4` (line 273). -/
def gifSegmentPath (tempDir : String) (i : ℕ) : String :=
  tempDir ++ "/segment_" ++ pad3 i ++ ".mp4"

/-- The segment-extraction command (lines 278-289). -/
def gifExtractCmd (ffmpeg_path video_path segment_path : String)
    (start seg_duration : ℚ) : List String :=
  [ffmpeg_path, "-y", "-i", video_path, "-ss", pyFixed 6 start,
   "-t", pyFixed 6 seg_duration, "-c:v", "libx264", "-preset", "fast",
   "-crf", "18", "-c:a", "aac", "-avoid_negative_ts", "make_zero", segment_path]

/-- The contents written to `concat.txt` (lines 299-301). -/
def concatContent (segment_files : List String) : String :=
  String.join (segment_files.map (fun seg => "file '" ++ seg ++ "'\n"))

/-- The concat command (lines 305-311). -/
def gifConcatCmd (ffmpeg_path concat_path merged_path : String) : List String :=
  [ffmpeg_path, "-y", "-f", "concat", "-safe", "0", "-i", concat_path,
   "-c", "copy", merged_path]

/-- `f"setpts={1.0/speed_mult}*PTS" if speed_mult != 1.0 else ""`
(line 264). -/
def speedFilterOf (speed_mult : ℚ) : String :=
  if speed_mult ≠ 1 then "setpts=" ++ pyFloatStr (1 / speed_mult) ++ "*PTS" else ""

/-- The single-segment trim filter (line 325). -/
def trimFilterOf (start seg_duration : ℚ) : String :=
  "trim=start=" ++ pyFixed 6 start ++ ":duration=" ++ pyFixed 6 seg_duration ++
    ",setpts=PTS-STARTPTS"

/-- `f"fps={frame_rate}"`. -/
def fpsFilter (frame_rate : PyNum) : String := "fps=" ++ pyStr frame_rate

/-- The shared filter list in the multi-segment branch (lines 333-335 and
363-365): `[fps, scale]`, with the speed filter inserted in front when
present. -/
def gifBaseFiltersMulti (frame_rate : PyNum) (scale_filter speed_filter : String) :
    List String :=
  if speed_filter ≠ "" then [speed_filter, fpsFilter frame_rate, scale_filter]
  else [fpsFilter frame_rate, scale_filter]

/-- The filter list in the single-segment branch (lines 340-342 and
370-372): `[trim, fps, scale]`, with the speed filter inserted at index 1
when present. -/
def gifBaseFiltersSingle (trim_filter : String) (frame_rate : PyNum)
    (scale_filter speed_filter : String) : List String :=
  if speed_filter ≠ "" then
    [trim_filter, speed_filter, fpsFilter frame_rate, scale_filter]
  else [trim_filter, fpsFilter frame_rate, scale_filter]

/-- The palette-generation filter chain (lines 336-344). -/
def paletteFilterOf (base : List String) (color_count : ℤ) : String :=
  String.intercalate "," (base ++ ["palettegen=max_colors=" ++ toString color_count])

/-- `f"dither={dither_method}" if dither_method != "none" else
"dither=none"` (line 359). -/
def ditherOpt (dither_method : String) : String :=
  if dither_method ≠ "none" then "dither=" ++ dither_method else "dither=none"

/-- The `filter_complex` of the final gif encode (lines 361-374). -/
def filterComplexOf (base : List String) (dither_method : String) : String :=
  "[0:v]" ++ String.intercalate "," base ++ "[v];[v][1:v]paletteuse=" ++
    ditherOpt dither_method

/-- The palette-generation command (lines 346-351). -/
def gifPaletteCmd (ffmpeg_path source palette_filter palette_path : String) :
    List String :=
  [ffmpeg_path, "-y", "-i", source, "-vf", palette_filter, palette_path]

/-- The final gif-encoding command (lines 376-383). -/
def gifFinalCmd (ffmpeg_path source palette_path filter_complex : String)
    (loop_count : ℤ) (output_path : String) : List String :=
  [ffmpeg_path, "-y", "-i", source, "-i", palette_path, "-filter_complex",
   filter_complex, "-loop", toString loop_count, output_path]

/-- The extraction loop over the enumerated keep segments (lines 272-295):
runs one command per segment in order, aborting at the first failure.
Returns the produced segment files, the commands actually executed, and
the failure message if any. -/
def runSegmentExtracts (env : GifEnv) (ffmpeg_path video_path : String) :
    List (ℕ × (ℚ × ℚ)) → List String × List (List String) × Option String
  | [] => ([], [], none)
  | (i, se) :: rest =>
    let segment_path := gifSegmentPath env.tempDir i
    let cmd := gifExtractCmd ffmpeg_path video_path segment_path se.1 (se.2 - se.1)
    let res := env.run cmd
    if res.returncode = 0 then
      let t := runSegmentExtracts env ffmpeg_path video_path rest
      (segment_path :: t.1, cmd :: t.2.1, t.2.2)
    else ([], [cmd], some ("Segment extraction failed: " ++ res.stderr.take 200))

/-- Observable output of one `process_video_to_gif` call. -/
structure GifProcOut where
  result : GifResult
  events : List GifEvent
  cmds : List (List String)
  writes : List (String × String) := []
  deriving DecidableEq

/-- The palette-generation and final-encode stage shared by the two
branches (lines 327-410). -/
def gifFinalStage (env : GifEnv) (ffmpeg_path source file_id output_path : String)
    (base : List String) (config : GifConfig) (ev : List GifEvent)
    (cmds0 : List (List String)) (writes : List (String × String)) : GifProcOut :=
  let palette_path := env.tempDir ++ "/palette.png"
  let pcmd := gifPaletteCmd ffmpeg_path source
    (paletteFilterOf base config.color_count) palette_path
  let pres := env.run pcmd
  if pres.returncode ≠ 0 then
    let msg := "Palette generation failed: " ++ pres.stderr.take 200
    { result := { success := false, file := file_id, error := some msg },
      events := ev ++ [GifEvent.fileError file_id msg],
      cmds := cmds0 ++ [pcmd], writes := writes }
  else
    let gcmd := gifFinalCmd ffmpeg_path source palette_path
      (filterComplexOf base config.dither_method) config.loop_count output_path
    let gres := env.run gcmd
    if gres.returncode ≠ 0 then
      let msg := "GIF creation failed: " ++ gres.stderr.take 200
      { result := { success := false, file := file_id, error := some msg },
        events := ev ++ [GifEvent.fileError file_id msg],
        cmds := cmds0 ++ [pcmd, gcmd], writes := writes }
    else
      let size_str := format_file_size (env.getsize output_path)
      { result := { success := true, file := file_id, output := some output_path,
                    size := some size_str },
        events := ev ++ [GifEvent.fileComplete file_id output_path size_str],
        cmds := cmds0 ++ [pcmd, gcmd], writes := writes }

/-- `process_video_to_gif` (lines 220-410). -/
def process_video_to_gif (env : GifEnv) (video_path : String) (config : GifConfig)
    (ffmpeg_path : String) : GifProcOut :=
  let file_id := pathName video_path
  let ev0 := [GifEvent.fileStart file_id video_path]
  match env.probe video_path with
  | none =>
    { result := { success := false, file := file_id,
                  error := some "Failed to probe video" },
      events := ev0 ++ [GifEvent.fileError file_id "Failed to probe video"],
      cmds := [] }
  | some info =>
    let keep_segments := calculate_keep_segments info.duration config.trim_start
      config.trim_end config.cut_segments config.frame_rate.toQ
    if keep_segments = [] then
      { result := { success := false, file := file_id,
                    error := some "No video content remaining after cuts" },
        events := ev0 ++
          [GifEvent.fileError file_id "No video content remaining after cuts"],
        cmds := [] }
    else
      let input_dir := if env.absDir video_path = "" then "." else env.absDir video_path
      let input_name := stemOf video_path
      let output_path := input_dir ++ "/" ++ input_name ++ ".gif"
      let scale_filter := build_scale_filter config.resolution info.width info.height
      let speed_filter := speedFilterOf config.speed_multiplier
      if 1 < keep_segments.length then
        let ex := runSegmentExtracts env ffmpeg_path video_path keep_segments.enum
        match ex.2.2 with
        | some msg =>
          { result := { success := false, file := file_id, error := some msg },
            events := ev0 ++ [GifEvent.fileError file_id msg], cmds := ex.2.1 }
        | none =>
          let concat_path := env.tempDir ++ "/concat.txt"
          let merged_path := env.tempDir ++ "/merged.mp4"
          let writes := [(concat_path, concatContent ex.1)]
          let ccmd := gifConcatCmd ffmpeg_path concat_path merged_path
          let cres := env.run ccmd
          if cres.returncode ≠ 0 then
            let msg := "Concat failed: " ++ cres.stderr.take 200
            { result := { success := false, file := file_id, error := some msg },
              events := ev0 ++ [GifEvent.fileError file_id msg],
              cmds := ex.2.1 ++ [ccmd], writes := writes }
          else
            gifFinalStage env ffmpeg_path merged_path file_id output_path
              (gifBaseFiltersMulti config.frame_rate scale_filter speed_filter)
              config ev0 (ex.2.1 ++ [ccmd]) writes
      else
        let se := keep_segments.headD (0, 0)
        let trim_filter := trimFilterOf se.1 (se.2 - se.1)
        gifFinalStage env ffmpeg_path video_path file_id output_path
          (gifBaseFiltersSingle trim_filter config.frame_rate scale_filter speed_filter)
          config ev0 [] []

/-! ### Claim C4 -/

/-- C4: when `calculate_keep_segments` returns the empty list,
`process_video_to_gif` emits a `file_error` event reporting that no video
content remains after cuts, returns a failure result for the file, and
executes no encode invocation. -/
theorem C4_empty_keep_no_encode (env : GifEnv) (video_path : String)
    (config : GifConfig) (ffmpeg_path : String) (info : ProbeInfo)
    (hprobe : env.probe video_path = some info)
    (hempty : calculate_keep_segments info.duration config.trim_start config.trim_end
        config.cut_segments config.frame_rate.toQ = []) :
    (process_video_to_gif env video_path config ffmpeg_path).events
      = [GifEvent.fileStart (pathName video_path) video_path,
         GifEvent.fileError (pathName video_path)
           "No video content remaining after cuts"] ∧
    (process_video_to_gif env video_path config ffmpeg_path).result
      = { success := false, file := pathName video_path,
          error := some "No video content remaining after cuts" } ∧
    (process_video_to_gif env video_path config ffmpeg_path).cmds = [] := by
  simp only [process_video_to_gif, hprobe]
  rw [if_pos hempty]
  exact ⟨rfl, rfl, rfl⟩

/-- A concrete oracle environment for the witnesses. -/
def gifEnvW : GifEnv where
  probe := fun _ => some { width := 1280, height := 720, duration := 20 }
  run := fun _ => { returncode := 0 }
  getsize := fun _ => 2048
  absDir := fun _ => "/videos"
  tempDir := "/tmp/work"

/-- A configuration whose single cut covers the whole trimmed range. -/
def gifCfgEmptyW : GifConfig := { frame_rate := .float 0, cut_segments := [(0, 20)] }

/-- Witness for C4: duration 20, cut `{0,20}` leaves nothing. -/
theorem C4_empty_keep_no_encode_witness :
    (gifEnvW.probe "/videos/clip.mp4"
        = some { width := 1280, height := 720, duration := 20 } ∧
      calculate_keep_segments 20 gifCfgEmptyW.trim_start gifCfgEmptyW.trim_end
        gifCfgEmptyW.cut_segments gifCfgEmptyW.frame_rate.toQ = []) ∧
    ((process_video_to_gif gifEnvW "/videos/clip.mp4" gifCfgEmptyW "ffmpeg").events
      = [GifEvent.fileStart (pathName "/videos/clip.mp4") "/videos/clip.mp4",
         GifEvent.fileError (pathName "/videos/clip.mp4")
           "No video content remaining after cuts"] ∧
     (process_video_to_gif gifEnvW "/videos/clip.mp4" gifCfgEmptyW "ffmpeg").result
      = { success := false, file := pathName "/videos/clip.mp4",
          error := some "No video content remaining after cuts" } ∧
     (process_video_to_gif gifEnvW "/videos/clip.mp4" gifCfgEmptyW "ffmpeg").cmds = []) :=
  ⟨⟨rfl, by decide⟩,
    C4_empty_keep_no_encode gifEnvW "/videos/clip.mp4" gifCfgEmptyW "ffmpeg"
      { width := 1280, height := 720, duration := 20 } rfl (by decide)⟩

/-! ### Claim C5 -/

/-- When every invocation succeeds, the extraction loop runs one command
per enumerated segment, in order. -/
lemma runSegmentExtracts_all_ok (env : GifEnv) (ffmpeg_path video_path : String)
    (hok : ∀ cmd, (env.run cmd).returncode = 0) :
    ∀ l : List (ℕ × (ℚ × ℚ)),
    runSegmentExtracts env ffmpeg_path video_path l
      = (l.map (fun p => gifSegmentPath env.tempDir p.1),
         l.map (fun p => gifExtractCmd ffmpeg_path video_path
           (gifSegmentPath env.tempDir p.1) p.2.1 (p.2.2 - p.2.1)),
         none) := by
  intro l
  induction l with
  | nil => rfl
  | cons p rest ih =>
    obtain ⟨i, se⟩ := p
    simp only [runSegmentExtracts, ih, if_pos (hok _), List.map_cons]

/-- C5: with `n ≥ 2` keep segments the pipeline executes exactly the `n`
segment extractions in keep-list order (ascending by start), then one
concat invocation whose manifest joins the intermediates in that same
order, and only then the palette-generation and final-encode invocations;
with exactly one keep segment it executes only the palette and encode
invocations, using a trim filter, with no extraction or concat. -/
theorem C5_pipeline_structure (env : GifEnv) (video_path : String)
    (config : GifConfig) (ffmpeg_path : String) (info : ProbeInfo)
    (hprobe : env.probe video_path = some info)
    (hok : ∀ cmd, (env.run cmd).returncode = 0)
    (keep : List (ℚ × ℚ))
    (hkeep : keep = calculate_keep_segments info.duration config.trim_start
        config.trim_end config.cut_segments config.frame_rate.toQ) :
    (2 ≤ keep.length →
      (process_video_to_gif env video_path config ffmpeg_path).cmds
        = keep.enum.map (fun p =>
            gifExtractCmd ffmpeg_path video_path (gifSegmentPath env.tempDir p.1)
              p.2.1 (p.2.2 - p.2.1))
          ++ [gifConcatCmd ffmpeg_path (env.tempDir ++ "/concat.txt")
              (env.tempDir ++ "/merged.mp4")]
          ++ [gifPaletteCmd ffmpeg_path (env.tempDir ++ "/merged.mp4")
              (paletteFilterOf (gifBaseFiltersMulti config.frame_rate
                (build_scale_filter config.resolution info.width info.height)
                (speedFilterOf config.speed_multiplier)) config.color_count)
              (env.tempDir ++ "/palette.png"),
            gifFinalCmd ffmpeg_path (env.tempDir ++ "/merged.mp4")
              (env.tempDir ++ "/palette.png")
              (filterComplexOf (gifBaseFiltersMulti config.frame_rate
                (build_scale_filter config.resolution info.width info.height)
                (speedFilterOf config.speed_multiplier)) config.dither_method)
              config.loop_count
              ((if env.absDir video_path = "" then "." else env.absDir video_path)
                ++ "/" ++ stemOf video_path ++ ".gif")] ∧
      (process_video_to_gif env video_path config ffmpeg_path).writes
        = [(env.tempDir ++ "/concat.txt",
            concatContent (keep.enum.map (fun p => gifSegmentPath env.tempDir p.1)))] ∧
      keep.Pairwise (fun a b => a.1 < b.1)) ∧
    (keep.length = 1 →
      (process_video_to_gif env video_path config ffmpeg_path).cmds
        = [gifPaletteCmd ffmpeg_path video_path
            (paletteFilterOf (gifBaseFiltersSingle
              (trimFilterOf (keep.headD (0, 0)).1
                ((keep.headD (0, 0)).2 - (keep.headD (0, 0)).1))
              config.frame_rate
              (build_scale_filter config.resolution info.width info.height)
              (speedFilterOf config.speed_multiplier)) config.color_count)
            (env.tempDir ++ "/palette.png"),
           gifFinalCmd ffmpeg_path video_path (env.tempDir ++ "/palette.png")
            (filterComplexOf (gifBaseFiltersSingle
              (trimFilterOf (keep.headD (0, 0)).1
                ((keep.headD (0, 0)).2 - (keep.headD (0, 0)).1))
              config.frame_rate
              (build_scale_filter config.resolution info.width info.height)
              (speedFilterOf config.speed_multiplier)) config.dither_method)
            config.loop_count
            ((if env.absDir video_path = "" then "." else env.absDir video_path)
              ++ "/" ++ stemOf video_path ++ ".gif")] ∧
      (process_video_to_gif env video_path config ffmpeg_path).writes = []) := by
  have hsorted := keep_segments_sorted_univ info.duration config.trim_start
    config.trim_end config.cut_segments config.frame_rate.toQ
  rw [← hkeep] at hsorted
  constructor
  · intro hlen
    have hne : keep ≠ [] := by
      intro h; rw [h] at hlen; simp at hlen
    rw [hkeep] at hne
    simp only [process_video_to_gif, hprobe]
    rw [if_neg hne, if_pos (by rw [← hkeep]; exact hlen),
      runSegmentExtracts_all_ok env ffmpeg_path video_path hok]
    rw [if_neg (by simp [hok])]
    simp only [gifFinalStage]
    rw [if_neg (by simp [hok]), if_neg (by simp [hok])]
    refine ⟨?_, ?_, ?_⟩
    · simp only [← hkeep]
    · simp only [← hkeep]
    · exact hsorted
  · intro hlen
    have hne : keep ≠ [] := by
      intro h; rw [h] at hlen; simp at hlen
    have hnot : ¬ 1 < keep.length := by omega
    rw [hkeep] at hne hnot
    simp only [process_video_to_gif, hprobe]
    rw [if_neg hne, if_neg hnot]
    simp only [gifFinalStage]
    rw [if_neg (by simp [hok]), if_neg (by simp [hok])]
    constructor
    · rw [← hkeep]
      rfl
    · rfl

/-- A multi-segment witness configuration: two interior cuts. -/
def gifCfgMultiW : GifConfig := { frame_rate := .float 0, cut_segments := [(5, 8), (15, 17)] }

/-- Witness for C5: three keep segments produce three extractions, one
concat, a palette pass and a final encode. -/
theorem C5_pipeline_structure_witness :
    (gifEnvW.probe "/videos/clip.mp4"
        = some { width := 1280, height := 720, duration := 20 } ∧
      (∀ cmd, (gifEnvW.run cmd).returncode = 0) ∧
      2 ≤ (calculate_keep_segments 20 gifCfgMultiW.trim_start gifCfgMultiW.trim_end
            gifCfgMultiW.cut_segments gifCfgMultiW.frame_rate.toQ).length) ∧
    ((process_video_to_gif gifEnvW "/videos/clip.mp4" gifCfgMultiW "ffmpeg").cmds
      = (calculate_keep_segments 20 gifCfgMultiW.trim_start gifCfgMultiW.trim_end
          gifCfgMultiW.cut_segments gifCfgMultiW.frame_rate.toQ).enum.map (fun p =>
            gifExtractCmd "ffmpeg" "/videos/clip.mp4"
              (gifSegmentPath gifEnvW.tempDir p.1) p.2.1 (p.2.2 - p.2.1))
        ++ [gifConcatCmd "ffmpeg" (gifEnvW.tempDir ++ "/concat.txt")
            (gifEnvW.tempDir ++ "/merged.mp4")]
        ++ [gifPaletteCmd "ffmpeg" (gifEnvW.tempDir ++ "/merged.mp4")
            (paletteFilterOf (gifBaseFiltersMulti gifCfgMultiW.frame_rate
              (build_scale_filter gifCfgMultiW.resolution 1280 720)
              (speedFilterOf gifCfgMultiW.speed_multiplier)) gifCfgMultiW.color_count)
            (gifEnvW.tempDir ++ "/palette.png"),
          gifFinalCmd "ffmpeg" (gifEnvW.tempDir ++ "/merged.mp4")
            (gifEnvW.tempDir ++ "/palette.png")
            (filterComplexOf (gifBaseFiltersMulti gifCfgMultiW.frame_rate
              (build_scale_filter gifCfgMultiW.resolution 1280 720)
              (speedFilterOf gifCfgMultiW.speed_multiplier)) gifCfgMultiW.dither_method)
            gifCfgMultiW.loop_count
            ((if gifEnvW.absDir "/videos/clip.mp4" = "" then "."
              else gifEnvW.absDir "/videos/clip.mp4")
              ++ "/" ++ stemOf "/videos/clip.mp4" ++ ".gif")] ∧
     (process_video_to_gif gifEnvW "/videos/clip.mp4" gifCfgMultiW "ffmpeg").writes
      = [(gifEnvW.tempDir ++ "/concat.txt",
          concatContent ((calculate_keep_segments 20 gifCfgMultiW.trim_start
            gifCfgMultiW.trim_end gifCfgMultiW.cut_segments
            gifCfgMultiW.frame_rate.toQ).enum.map
              (fun p => gifSegmentPath gifEnvW.tempDir p.1)))] ∧
     (calculate_keep_segments 20 gifCfgMultiW.trim_start gifCfgMultiW.trim_end
        gifCfgMultiW.cut_segments gifCfgMultiW.frame_rate.toQ).Pairwise
          (fun a b => a.1 < b.1)) :=
  ⟨⟨rfl, fun _ => rfl, by decide⟩,
    (C5_pipeline_structure gifEnvW "/videos/clip.mp4" gifCfgMultiW "ffmpeg"
      { width := 1280, height := 720, duration := 20 } rfl (fun _ => rfl)
      _ rfl).1 (by decide)⟩

/-! ## `video_splitter_batch.py` — segment extraction commands -/

/-- The argv list built by `split_single_segment` in
`video_splitter_batch.py` (lines 140-161).  The time values are passed as
`str(start_time)` and `str(duration)` — plain Python `str`, not a
fixed-point format. -/
def split_single_segment_cmd (video_path output_file : String)
    (start_time duration target_fps : PyNum) (bit_rate : ℤ)
    (width height : ℤ) (encoder ffmpeg_path : String) : List String :=
  [ffmpeg_path, "-y", "-i", video_path, "-ss", pyStr start_time,
   "-t", pyStr duration, "-c:v", encoder, "-r", pyStr target_fps,
   "-b:v", toString bit_rate, "-vf",
   "scale=" ++ toString width ++ ":" ++ toString height]
  ++ (if encoder = "libx264" then ["-preset", "medium"] else [])
  ++ ["-c:a", "copy", "-avoid_negative_ts", "1", output_file]

/-- Segment count and duration from `process_video_file`
(lines 211-218): duration mode takes the configured chunk length and
`math.ceil(duration / chunk)` chunks; segments mode divides the duration
by `int(split_value)` segments. -/
def segment_parameters (split_method : String) (split_value : PyNum)
    (duration : ℚ) : PyNum × ℤ :=
  if split_method = "duration" then
    (split_value, ⌈duration / split_value.toQ⌉)
  else
    (PyNum.float (duration / (split_value.trunc : ℚ)), split_value.trunc)

/-- The segment task list of `process_video_file` (lines 229-239):
`start_time = i * segment_duration`, output
`{input_name}_part{i+1:03d}{extension}`. -/
def splitter_segment_tasks (input_name extension output_dir : String)
    (num_segments : ℤ) (segment_duration : PyNum) : List (String × PyNum) :=
  (List.range num_segments.toNat).map (fun i =>
    (output_dir ++ "/" ++ input_name ++ "_part" ++ pad3 (i + 1) ++ extension,
     segment_duration.mulNat i))

/-! ### Claim C8 -/

/-- C8, counterexample: the video splitter's segment-extraction command
formats its `-ss` start offset with Python `str`, not with 6 decimal
digits.  For the first segment of a duration-mode split with
`split_value = 60` (a JSON integer) the `-ss` argument is the string
`"0"`, which has no decimal digits at all. -/
theorem C8_counterexample :
    (split_single_segment_cmd "/v/in.mp4" "/v/in_parts/in_part001.mp4"
        ((PyNum.int 60).mulNat 0) (PyNum.int 60) (PyNum.int 30) 2000000 1920 1080
        "libx264" "ffmpeg").getD 5 "" = "0" ∧
    decimalsAfterDot "0" ≠ some 6 := by
  constructor
  · rfl
  · decide

/-- C8 (amended): every time value `video_to_gif.py` passes downstream —
the `-ss` and `-t` arguments of its segment-extraction commands and the
bounds of its trim filter — is formatted with `.6f` and so carries exactly
6 decimal digits; the video splitter's segment-extraction commands instead
pass `str(start_time)` and `str(duration)`, which does not pad (an
integer-valued start prints with no decimal digits at all). -/
theorem C8_time_format :
    (∀ q : ℚ, decimalsAfterDot (pyFixed 6 q) = some 6) ∧
    (∀ f v s : String, ∀ st d : ℚ,
      (gifExtractCmd f v s st d).getD 5 "" = pyFixed 6 st ∧
      (gifExtractCmd f v s st d).getD 7 "" = pyFixed 6 d) ∧
    (∀ st d : ℚ, trimFilterOf st d
      = "trim=start=" ++ pyFixed 6 st ++ ":duration=" ++ pyFixed 6 d ++
        ",setpts=PTS-STARTPTS") ∧
    (∀ (v o : String) (st du fps : PyNum) (br w h : ℤ) (enc f : String),
      (split_single_segment_cmd v o st du fps br w h enc f).getD 5 "" = pyStr st ∧
      (split_single_segment_cmd v o st du fps br w h enc f).getD 7 "" = pyStr du) ∧
    decimalsAfterDot (pyStr (.int 0)) = none :=
  ⟨pyFixed_decimals 6,
   fun _ _ _ _ _ => ⟨rfl, rfl⟩,
   fun _ _ => rfl,
   fun _ _ _ _ _ _ _ _ _ _ => ⟨rfl, rfl⟩,
   by decide⟩

/-! ## `video_to_gif.py` — `run_batch` and `main` -/

/-- `run_batch` (lines 422-469): validate the file list (one `error` event
per missing file), bail out with a final `error` event when nothing
remains, otherwise emit `start`, process each valid file serially (with a
`progress` event before each) and emit a final `complete` event.  Returns
the events and the executed commands.  `isFile` is the `os.path.isfile`
oracle and `ffmpeg_path` the result of `get_ffmpeg_path()`. -/
def run_batch_gif (env : GifEnv) (isFile : String → Bool) (ffmpeg_path : String)
    (files : List String) (config : GifConfig) :
    List GifEvent × List (List String) :=
  let valid_files := files.filter (fun f => isFile f)
  let errEvents := (files.filter (fun f => !(isFile f))).map
    (fun f => GifEvent.errorEvent ("File not found: " ++ f))
  if valid_files = [] then
    (errEvents ++ [GifEvent.errorEvent "No valid files to process"], [])
  else
    let outs := valid_files.enum.map (fun p =>
      (GifEvent.progress (p.1 + 1) valid_files.length (pathName p.2),
       process_video_to_gif env p.2 config ffmpeg_path))
    let results := outs.map (fun o => o.2.result)
    let successful := (results.filter (fun r => r.success)).length
    let failed := results.length - successful
    (errEvents ++ [GifEvent.start valid_files.length ffmpeg_path]
      ++ (outs.map (fun o => o.1 :: o.2.events)).join
      ++ [GifEvent.complete valid_files.length successful failed results],
     (outs.map (fun o => o.2.cmds)).join)

/-- Exit status of `main` (lines 472-500) on the path where the
configuration was read successfully and `run_batch` returned: `main` falls
through without calling `sys.exit`, so the interpreter exits with
status 0. -/
def gif_main_exit_status : ℕ := 0

/-! ### Claim C6 -/

/-- C6, counterexample: one listed file that does not exist produces *two*
error events — `File not found: …` and `No valid files to process` — and
the run exits with status 0, not a non-zero outcome. -/
theorem C6_counterexample :
    (run_batch_gif gifEnvW (fun _ => false) "ffmpeg" ["/videos/missing.mp4"] {}).1
      = [GifEvent.errorEvent "File not found: /videos/missing.mp4",
         GifEvent.errorEvent "No valid files to process"] ∧
    ((run_batch_gif gifEnvW (fun _ => false) "ffmpeg" ["/videos/missing.mp4"] {}).1.countP
      (fun e => match e with | GifEvent.errorEvent _ => true | _ => false)) ≠ 1 ∧
    gif_main_exit_status = 0 := by
  refine ⟨rfl, ?_, rfl⟩
  decide

/-- C6 (amended): when the input lists files but none resolves to an
existing file, the run terminates before any per-file processing — no
`start`, `progress` or `complete` event and no encoder invocation — after
emitting one `File not found` error event per listed file followed by a
final `No valid files to process` error event; the process then exits with
status 0. -/
theorem C6_all_invalid (env : GifEnv) (isFile : String → Bool)
    (ffmpeg_path : String) (files : List String) (config : GifConfig)
    (hne : files ≠ []) (hinv : ∀ f ∈ files, isFile f = false) :
    (run_batch_gif env isFile ffmpeg_path files config).1
      = files.map (fun f => GifEvent.errorEvent ("File not found: " ++ f))
        ++ [GifEvent.errorEvent "No valid files to process"] ∧
    (run_batch_gif env isFile ffmpeg_path files config).2 = [] ∧
    gif_main_exit_status = 0 := by
  have hval : files.filter (fun f => isFile f) = [] :=
    List.filter_eq_nil.mpr (fun a ha => by simp [hinv a ha])
  have hinvf : files.filter (fun f => !(isFile f)) = files :=
    List.filter_eq_self.mpr (fun a ha => by simp [hinv a ha])
  simp only [run_batch_gif]
  rw [hval, hinvf, if_pos rfl]
  exact ⟨rfl, rfl, rfl⟩

/-- Witness for C6 (amended): two listed files, neither exists. -/
theorem C6_all_invalid_witness :
    ((["/v/a.mp4", "/v/b.mp4"] : List String) ≠ [] ∧
      (∀ f ∈ (["/v/a.mp4", "/v/b.mp4"] : List String), (fun _ => false) f = false)) ∧
    ((run_batch_gif gifEnvW (fun _ => false) "ffmpeg" ["/v/a.mp4", "/v/b.mp4"] {}).1
      = (["/v/a.mp4", "/v/b.mp4"] : List String).map
          (fun f => GifEvent.errorEvent ("File not found: " ++ f))
        ++ [GifEvent.errorEvent "No valid files to process"] ∧
     (run_batch_gif gifEnvW (fun _ => false) "ffmpeg" ["/v/a.mp4", "/v/b.mp4"] {}).2 = [] ∧
     gif_main_exit_status = 0) :=
  ⟨⟨by decide, fun _ _ => rfl⟩,
    C6_all_invalid gifEnvW (fun _ => false) "ffmpeg" ["/v/a.mp4", "/v/b.mp4"] {}
      (by decide) (fun _ _ => rfl)⟩

/-! ## `video_audio_separator_batch.py`

The separator's per-file work runs in worker processes; each
`subprocess.run` is modelled by an oracle that either returns an exit code
with stderr or raises.  The `as_completed` arrival order of the pool is an
explicit parameter (a permutation of the task indices). -/

/-- Outcome of one `subprocess.run` in the separator. -/
inductive SepRunOutcome where
  | ran (returncode : ℤ) (stderr : String)
  | raised (msg : String)
  deriving DecidableEq

/-- Audio-stream metadata from `probe_video` (lines 114-120). -/
structure SepAudioInfo where
  sample_rate : ℤ
  channels : ℤ
  codec : String
  deriving DecidableEq

/-- The metadata `probe_video` extracts (lines 75-133). -/
structure SepProbeInfo where
  frame_rate : ℚ
  bit_rate : ℤ
  width : ℤ
  height : ℤ
  codec : String
  has_audio : Bool
  audio_info : Option SepAudioInfo
  deriving DecidableEq

/-- Effect oracles for the separator. -/
structure SepEnv where
  probe : String → Option SepProbeInfo
  run : List String → SepRunOutcome
  pathExists : String → Bool
  getsize : String → ℕ
  absDir : String → String
  videotoolbox : Bool

/-- A per-stream result dictionary (`extract_video_stream` /
`extract_audio_stream`), with the optional keys the code uses. -/
structure StreamResult where
  success : Bool
  file_id : Option String := none
  stream : Option String := none
  output : Option String := none
  error : Option String := none
  warning : Option String := none
  skipped : Option Bool := none
  reason : Option String := none
  deriving DecidableEq

/-- The video-extraction command (lines 141-154). -/
def extract_video_cmd (video_path output_file : String) (frame_rate : ℚ)
    (bit_rate : ℤ) (encoder ffmpeg_path : String) : List String :=
  [ffmpeg_path, "-y", "-i", video_path, "-c:v", encoder, "-r", pyFloatStr frame_rate,
   "-b:v", toString bit_rate, "-an"]
  ++ (if encoder = "libx264" then ["-preset", "medium"] else [])
  ++ [output_file]

/-- `extract_video_stream` (lines 136-163). -/
def extract_video_stream (env : SepEnv) (video_path output_file : String)
    (frame_rate : ℚ) (bit_rate : ℤ) (encoder ffmpeg_path file_id : String) :
    StreamResult :=
  match env.run (extract_video_cmd video_path output_file frame_rate bit_rate
      encoder ffmpeg_path) with
  | .ran rc stderr =>
    if rc = 0 then
      { success := true, file_id := some file_id, stream := some "video",
        output := some output_file }
    else
      { success := false, file_id := some file_id, stream := some "video",
        error := some (stderr.take 500) }
  | .raised msg =>
    { success := false, file_id := some file_id, stream := some "video",
      error := some msg }

/-- The three WAV extraction attempts (lines 171-180). -/
def audio_method_cmds (ffmpeg_path video_path output_file : String)
    (sample_rate : ℤ) : List (List String) :=
  [[ffmpeg_path, "-y", "-analyzeduration", "100M", "-probesize", "100M",
    "-i", video_path, "-vn", "-acodec", "pcm_s16le", "-ar", toString sample_rate,
    output_file],
   [ffmpeg_path, "-y", "-i", video_path, "-vn", "-acodec", "pcm_f32le",
    "-ar", toString sample_rate, output_file],
   [ffmpeg_path, "-y", "-f", "mp4", "-i", video_path, "-vn", "-f", "wav",
    output_file]]

/-- The method loop of `extract_audio_stream` (lines 182-188): a method
succeeds when its run returns exit code 0, the output file exists and is
larger than 1000 bytes; an exception just moves on to the next method. -/
def tryAudioMethods (env : SepEnv) (output_file file_id : String) :
    List (List String) → Option StreamResult
  | [] => none
  | cmd :: rest =>
    match env.run cmd with
    | .ran rc _ =>
      if rc = 0 ∧ env.pathExists output_file ∧ 1000 < env.getsize output_file then
        some { success := true, file_id := some file_id, stream := some "audio",
               output := some output_file }
      else tryAudioMethods env output_file file_id rest
    | .raised _ => tryAudioMethods env output_file file_id rest

/-- Python's `str.replace`, with explicit fuel to keep the recursion
structural: replace non-overlapping occurrences of `pat` left to right
(for a non-empty pattern, as in the source's `.replace('.wav','.aac')`);
each step consumes at least one character, so fuel = length suffices. -/
def pyReplaceAux (pat rep : List Char) : ℕ → List Char → List Char
  | _, [] => []
  | 0, s => s
  | fuel + 1, c :: rest =>
    if pat ≠ [] ∧ (c :: rest).take pat.length = pat then
      rep ++ pyReplaceAux pat rep fuel ((c :: rest).drop pat.length)
    else c :: pyReplaceAux pat rep fuel rest

/-- Python's `str.replace` on character lists. -/
def pyReplace (pat rep s : List Char) : List Char :=
  pyReplaceAux pat rep s.length s

/-- `output_file.replace('.wav', '.aac')` (line 191). -/
def pyReplaceStr (s pat rep : String) : String :=
  String.mk (pyReplace pat.data rep.data s.data)

example : pyReplaceStr "/v/x_audio.wav" ".wav" ".aac" = "/v/x_audio.aac" := by decide

/-- The raw-copy fallback command (line 193). -/
def sepCopyCmd (ffmpeg_path video_path raw_output : String) : List String :=
  [ffmpeg_path, "-y", "-i", video_path, "-vn", "-acodec", "copy", raw_output]

/-- `extract_audio_stream` (lines 166-211). -/
def extract_audio_stream (env : SepEnv) (video_path output_file : String)
    (sample_rate : ℤ) (ffmpeg_path file_id : String) : StreamResult :=
  match tryAudioMethods env output_file file_id
      (audio_method_cmds ffmpeg_path video_path output_file sample_rate) with
  | some r => r
  | none =>
    let raw_output := pyReplaceStr output_file ".wav" ".aac"
    match env.run (sepCopyCmd ffmpeg_path video_path raw_output) with
    | .ran rc _ =>
      if rc = 0 ∧ env.pathExists raw_output ∧ 1000 < env.getsize raw_output then
        { success := true, file_id := some file_id, stream := some "audio",
          output := some raw_output,
          warning := some "Could not convert to WAV, saved as AAC" }
      else
        { success := false, file_id := some file_id, stream := some "audio",
          error := some "All audio extraction methods failed" }
    | .raised _ =>
      { success := false, file_id := some file_id, stream := some "audio",
        error := some "All audio extraction methods failed" }

/-- The per-file output locations of `process_single_file`
(lines 226-232). -/
def sepOutputDir (env : SepEnv) (video_path : String) : String :=
  (if env.absDir video_path = "" then "." else env.absDir video_path) ++ "/" ++
    stemOf video_path ++ "_separated"

def sepVideoOutput (env : SepEnv) (video_path : String) : String :=
  sepOutputDir env video_path ++ "/" ++ stemOf video_path ++ "_video.mp4"

def sepAudioOutput (env : SepEnv) (video_path : String) : String :=
  sepOutputDir env video_path ++ "/" ++ stemOf video_path ++ "_audio.wav"

/-- `'h264_videotoolbox' if use_videotoolbox else 'libx264'` (line 234). -/
def sepEncoder (env : SepEnv) : String :=
  if env.videotoolbox then "h264_videotoolbox" else "libx264"

/-- Per-file result dictionary of `process_single_file`. -/
structure SepResult where
  success : Bool
  file : String
  output_dir : Option String := none
  video : Option StreamResult := none
  audio : Option StreamResult := none
  error : Option String := none
  deriving DecidableEq

/-- `process_single_file` (lines 214-259). -/
def process_single_file (env : SepEnv) (video_path : String) (sample_rate : ℤ)
    (ffmpeg_path : String) : SepResult :=
  let file_id := pathName video_path
  match env.probe video_path with
  | none => { success := false, file := file_id, error := some "Failed to probe video" }
  | some info =>
    let video_result := extract_video_stream env video_path
      (sepVideoOutput env video_path) info.frame_rate info.bit_rate
      (sepEncoder env) ffmpeg_path file_id
    let audio_result :=
      if info.has_audio then
        extract_audio_stream env video_path (sepAudioOutput env video_path)
          sample_rate ffmpeg_path file_id
      else
        { success := true, skipped := some true, reason := some "No audio stream" }
    { success := video_result.success &&
        (audio_result.success || audio_result.skipped.getD false),
      file := file_id, output_dir := some (sepOutputDir env video_path),
      video := some video_result, audio := some audio_result }

/-- Events the separator emits. -/
inductive SepEvent where
  | start (total_files : ℕ) (sample_rate_mode : String) (default_sample_rate : ℤ)
      (parallel_jobs : ℤ) (hardware_acceleration : Bool) (ffmpeg_path : String)
  | fileComplete (file : String) (output_dir : Option String)
      (video audio : Option StreamResult) (progress : String)
  | fileError (file : String) (video audio : Option StreamResult) (error : String)
  | complete (total_files successful failed : ℕ) (results : List SepResult)
  | errorEvent (message : String)
  deriving DecidableEq

/-- The separator `config` dictionary with its defaults (lines 280-283). -/
structure SepConfig where
  sample_rate_mode : String := "single"
  sample_rate : ℤ := 48000
  sample_rates : List (String × ℤ) := []
  parallel_jobs : ℤ := 4
  deriving DecidableEq

/-- Dictionary lookup `sample_rates[filename]`. -/
def lookupRate (m : List (String × ℤ)) (k : String) : Option ℤ :=
  (m.find? (fun p => p.1 = k)).map (fun p => p.2)

/-- The per-file sample rate resolution (lines 315-320). -/
def sepFileRate (cfg : SepConfig) (filename : String) : ℤ :=
  if cfg.sample_rate_mode = "per_file" then
    (lookupRate cfg.sample_rates filename).getD cfg.sample_rate
  else cfg.sample_rate

/-- `run_batch` of the separator (lines 262-372).  The files are validated
in order, the per-file tasks are built in insertion order, the pool runs
them concurrently and `as_completed` yields them in the arrival order
`arrival` (a permutation of the task indices); the orchestrator appends
each result to `results` as it arrives and finally emits a `complete`
event carrying that list. -/
def run_batch_sep (env : SepEnv) (isFile : String → Bool) (ffmpeg_path : String)
    (files : List String) (cfg : SepConfig) (arrival : List ℕ) :
    List SepEvent × List SepResult :=
  let valid_files := files.filter (fun f => isFile f)
  let errEvents := (files.filter (fun f => !(isFile f))).map
    (fun f => SepEvent.errorEvent ("File not found: " ++ f))
  if valid_files = [] then
    (errEvents ++ [SepEvent.errorEvent "No valid files to process"], [])
  else
    let tasks := valid_files.map (fun p => (p, sepFileRate cfg (pathName p)))
    let completionOutputs := arrival.filterMap (fun i =>
      (tasks.get? i).map (fun t =>
        (t.1, process_single_file env t.1 t.2 ffmpeg_path)))
    let n := valid_files.length
    let perEvents := completionOutputs.enum.map (fun q =>
      let file_id := pathName q.2.1
      let r := q.2.2
      if r.success then
        SepEvent.fileComplete file_id r.output_dir r.video r.audio
          (toString (q.1 + 1) ++ "/" ++ toString n)
      else
        SepEvent.fileError file_id r.video r.audio (r.error.getD "Unknown error"))
    let results := completionOutputs.map (fun q => q.2)
    let successful := (results.filter (fun r => r.success)).length
    let failed := results.length - successful
    (errEvents ++ [SepEvent.start n cfg.sample_rate_mode cfg.sample_rate
        cfg.parallel_jobs env.videotoolbox ffmpeg_path]
      ++ perEvents
      ++ [SepEvent.complete n successful failed results],
     results)

/-- The `file` field of a per-file result is always the file's name. -/
lemma process_single_file_file (env : SepEnv) (video_path : String)
    (sample_rate : ℤ) (ffmpeg_path : String) :
    (process_single_file env video_path sample_rate ffmpeg_path).file
      = pathName video_path := by
  unfold process_single_file
  cases env.probe video_path <;> rfl

/-! ### Claim C7 -/

/-- A concrete separator environment for the counterexample: probing
always fails, so each file produces a probe-failure result. -/
def sepEnvW : SepEnv where
  probe := fun _ => none
  run := fun _ => .ran 0 ""
  pathExists := fun _ => true
  getsize := fun _ => 5000
  absDir := fun _ => "/v"
  videotoolbox := false

/-- C7, counterexample: with two files and completion order `[1, 0]` (the
second file finishes first), the `complete` event's results list is in
completion order `[b, a]`, not the insertion order `[a, b]` of the input
file list. -/
theorem C7_counterexample :
    ([1, 0] : List ℕ).Perm (List.range 2) ∧
    (run_batch_sep sepEnvW (fun _ => true) "ffmpeg" ["/v/a.mp4", "/v/b.mp4"] {}
      [1, 0]).2.map (fun r => r.file) = ["b.mp4", "a.mp4"] ∧
    (run_batch_sep sepEnvW (fun _ => true) "ffmpeg" ["/v/a.mp4", "/v/b.mp4"] {}
      [1, 0]).2.map (fun r => r.file) ≠ ["a.mp4", "b.mp4"] := by
  refine ⟨by decide, rfl, by decide⟩

/-- C7 (amended): for every completion order of the worker pool — any
permutation `arrival` of the task indices — the results list carried by
the final `complete` event is in completion order: the file processed by
the i-th completed task appears at position i.  It is not, in general, the
insertion order of the input file list (see the counterexample). -/
theorem C7_completion_order (env : SepEnv) (isFile : String → Bool)
    (ffmpeg_path : String) (files : List String) (cfg : SepConfig)
    (arrival : List ℕ)
    (hperm : arrival.Perm (List.range (files.filter (fun f => isFile f)).length))
    (hne : files.filter (fun f => isFile f) ≠ []) :
    (run_batch_sep env isFile ffmpeg_path files cfg arrival).2
      = arrival.filterMap (fun i =>
          ((files.filter (fun f => isFile f)).get? i).map (fun p =>
            process_single_file env p (sepFileRate cfg (pathName p)) ffmpeg_path)) ∧
    (run_batch_sep env isFile ffmpeg_path files cfg arrival).2.map (fun r => r.file)
      = arrival.filterMap (fun i =>
          ((files.filter (fun f => isFile f)).get? i).map (fun p => pathName p)) := by
  have hmain : (run_batch_sep env isFile ffmpeg_path files cfg arrival).2
      = arrival.filterMap (fun i =>
          ((files.filter (fun f => isFile f)).get? i).map (fun p =>
            process_single_file env p (sepFileRate cfg (pathName p)) ffmpeg_path)) := by
    simp only [run_batch_sep]
    rw [if_neg hne]
    simp only [List.map_filterMap, List.get?_map, Option.map_map]
    rfl
  refine ⟨hmain, ?_⟩
  rw [hmain, List.map_filterMap]
  congr 1
  funext i
  rw [Option.map_map]
  congr 1
  funext p
  exact process_single_file_file env p (sepFileRate cfg (pathName p)) ffmpeg_path

/-- Witness for C7 (amended) at two valid files and arrival order
`[1, 0]`. -/
theorem C7_completion_order_witness :
    (([1, 0] : List ℕ).Perm
        (List.range ((["/v/a.mp4", "/v/b.mp4"].filter (fun _ => true)).length)) ∧
      (["/v/a.mp4", "/v/b.mp4"].filter (fun _ => (true : Bool))) ≠ []) ∧
    ((run_batch_sep sepEnvW (fun _ => true) "ffmpeg" ["/v/a.mp4", "/v/b.mp4"] {}
        [1, 0]).2
      = ([1, 0] : List ℕ).filterMap (fun i =>
          ((["/v/a.mp4", "/v/b.mp4"].filter (fun _ => true)).get? i).map (fun p =>
            process_single_file sepEnvW p (sepFileRate {} (pathName p)) "ffmpeg")) ∧
     (run_batch_sep sepEnvW (fun _ => true) "ffmpeg" ["/v/a.mp4", "/v/b.mp4"] {}
        [1, 0]).2.map (fun r => r.file)
      = ([1, 0] : List ℕ).filterMap (fun i =>
          ((["/v/a.mp4", "/v/b.mp4"].filter (fun _ => true)).get? i).map
            (fun p => pathName p))) :=
  ⟨⟨by decide, by decide⟩,
    C7_completion_order sepEnvW (fun _ => true) "ffmpeg" ["/v/a.mp4", "/v/b.mp4"] {}
      [1, 0] (by decide) (by decide)⟩

/-! ### Claim C9 -/

/-- C9: for a file whose probe reports a video stream but no audio stream,
`process_single_file` marks the audio result as skipped (success true,
skipped true, with a reason) and the overall result is successful exactly
when the video extraction succeeded. -/
theorem C9_no_audio_is_skipped (env : SepEnv) (video_path : String)
    (sample_rate : ℤ) (ffmpeg_path : String) (info : SepProbeInfo)
    (hprobe : env.probe video_path = some info)
    (hnoaudio : info.has_audio = false)
    (hvideo : (extract_video_stream env video_path (sepVideoOutput env video_path)
        info.frame_rate info.bit_rate (sepEncoder env) ffmpeg_path
        (pathName video_path)).success = true) :
    (process_single_file env video_path sample_rate ffmpeg_path).success = true ∧
    (process_single_file env video_path sample_rate ffmpeg_path).audio
      = some { success := true, skipped := some true,
               reason := some "No audio stream" } := by
  simp only [process_single_file, hprobe, hnoaudio, hvideo]
  exact ⟨rfl, rfl⟩

/-- A separator environment whose probe reports video but no audio. -/
def sepEnvNoAudioW : SepEnv where
  probe := fun _ => some { frame_rate := 30, bit_rate := 2000000, width := 1920,
                           height := 1080, codec := "h264", has_audio := false,
                           audio_info := none }
  run := fun _ => .ran 0 ""
  pathExists := fun _ => true
  getsize := fun _ => 5000
  absDir := fun _ => "/v"
  videotoolbox := false

/-- Witness for C9. -/
theorem C9_no_audio_is_skipped_witness :
    (sepEnvNoAudioW.probe "/v/clip.mp4"
        = some { frame_rate := 30, bit_rate := 2000000, width := 1920,
                 height := 1080, codec := "h264", has_audio := false,
                 audio_info := none } ∧
      ({ frame_rate := 30, bit_rate := 2000000, width := 1920, height := 1080,
         codec := "h264", has_audio := false,
         audio_info := none } : SepProbeInfo).has_audio = false ∧
      (extract_video_stream sepEnvNoAudioW "/v/clip.mp4"
        (sepVideoOutput sepEnvNoAudioW "/v/clip.mp4") 30 2000000
        (sepEncoder sepEnvNoAudioW) "ffmpeg" (pathName "/v/clip.mp4")).success
        = true) ∧
    ((process_single_file sepEnvNoAudioW "/v/clip.mp4" 48000 "ffmpeg").success
        = true ∧
     (process_single_file sepEnvNoAudioW "/v/clip.mp4" 48000 "ffmpeg").audio
        = some { success := true, skipped := some true,
                 reason := some "No audio stream" }) :=
  ⟨⟨rfl, rfl, rfl⟩,
    C9_no_audio_is_skipped sepEnvNoAudioW "/v/clip.mp4" 48000 "ffmpeg"
      { frame_rate := 30, bit_rate := 2000000, width := 1920, height := 1080,
        codec := "h264", has_audio := false, audio_info := none }
      rfl rfl rfl⟩

/-! ### Claim C10 -/

/-- The pattern `.wav` replaced by `extract_audio_stream`. -/
def wavPat : List Char := ['.', 'w', 'a', 'v']

/-- The replacement `.aac`. -/
def aacRep : List Char := ['.', 'a', 'a', 'c']

/-- Replacing `.wav` by `.aac` turns a string ending in `.wav` into one
ending in `.aac` (the pattern cannot overlap itself, so the final
occurrence is always rewritten). -/
lemma pyReplaceAux_wav_suffix :
    ∀ (fuel : ℕ) (s : List Char), s.length ≤ fuel → wavPat <:+ s →
    aacRep <:+ pyReplaceAux wavPat aacRep fuel s := by
  intro fuel
  induction fuel with
  | zero =>
    intro s hs hsuf
    have hnil : s = [] := List.eq_nil_of_length_eq_zero (Nat.le_zero.mp hs)
    subst hnil
    obtain ⟨u, hu⟩ := hsuf
    simp [wavPat] at hu
  | succ n ih =>
    intro s hs hsuf
    cases s with
    | nil =>
      obtain ⟨u, hu⟩ := hsuf
      simp [wavPat] at hu
    | cons c rest =>
      simp only [pyReplaceAux]
      split_ifs with hm
      · obtain ⟨-, htake⟩ := hm
        have hsplit : c :: rest = wavPat ++ (c :: rest).drop wavPat.length := by
          conv_lhs => rw [← List.take_append_drop wavPat.length (c :: rest)]
          rw [htake]
        set t := (c :: rest).drop wavPat.length with ht
        by_cases htn : t = []
        · rw [htn]
          have hz : pyReplaceAux wavPat aacRep n ([] : List Char) = [] := by
            cases n <;> rfl
          rw [hz, List.append_nil]
        · have hlent : t.length + 4 = rest.length + 1 := by
            have := congrArg List.length hsplit
            simp [wavPat] at this
            simp [this]
          by_cases hlen4 : 4 ≤ t.length
          · have hsuf2 : wavPat <:+ t := by
              rw [hsplit] at hsuf
              obtain ⟨u, hu⟩ := hsuf
              have hul : u.length + wavPat.length = wavPat.length + t.length := by
                have := congrArg List.length hu
                simpa using this
              refine ⟨u.drop wavPat.length, ?_⟩
              have hd := congrArg (List.drop wavPat.length) hu
              rw [List.drop_append_of_le_length (by simp [wavPat] at hul ⊢; omega),
                List.drop_left] at hd
              exact hd
            have hs2 : rest.length + 1 ≤ n + 1 := by simpa using hs
            have hts : t.length ≤ n := by omega
            obtain ⟨u, hu⟩ := ih t hts hsuf2
            exact ⟨aacRep ++ u, by rw [List.append_assoc, hu]⟩
          · exfalso
            rw [hsplit] at hsuf
            obtain ⟨u, hu⟩ := hsuf
            have hul : u.length = t.length := by
              have := congrArg List.length hu
              simp at this
              omega
            have h1 : (u ++ wavPat).getD u.length ' ' = '.' := by
              rw [List.getD_append_right u wavPat ' ' u.length (le_refl _)]
              simp [wavPat]
            rw [hu, List.getD_append wavPat t ' ' u.length
              (by simp [wavPat]; omega)] at h1
            have hk1 : 1 ≤ u.length := by
              have : t ≠ [] := htn
              have : 0 < t.length := List.length_pos.mpr htn
              omega
            have hk3 : u.length < 4 := by omega
            set k := u.length with hk
            interval_cases k <;> exact absurd h1 (by decide)
      · obtain ⟨u, hu⟩ := hsuf
        cases u with
        | nil =>
          exfalso
          apply hm
          refine ⟨by simp [wavPat], ?_⟩
          rw [List.nil_append] at hu
          rw [← hu]
          decide
        | cons u0 u1 =>
          have hrest : wavPat <:+ rest := by
            refine ⟨u1, ?_⟩
            rw [List.cons_append] at hu
            injection hu with h1 h2
          have hrl : rest.length ≤ n := by
            simp at hs
            omega
          obtain ⟨v, hv⟩ := ih rest hrl hrest
          exact ⟨c :: v, by rw [List.cons_append, hv]⟩

/-- C10: when every WAV extraction method has failed, the raw-copy
fallback decides the outcome: if its run returns exit code 0 and the
`.aac` output exists with more than 1000 bytes, `extract_audio_stream`
returns success with the `.wav` output path rewritten to `.aac` and a
warning; otherwise — fallback exit failure, missing or tiny output, or an
exception — it returns the failure record.  A path ending in `.wav` always
yields an output path ending in `.aac`. -/
theorem C10_audio_fallback (env : SepEnv) (video_path output_file : String)
    (sample_rate : ℤ) (ffmpeg_path file_id : String)
    (hfail : tryAudioMethods env output_file file_id
      (audio_method_cmds ffmpeg_path video_path output_file sample_rate) = none) :
    (∀ rc stderr, env.run (sepCopyCmd ffmpeg_path video_path
        (pyReplaceStr output_file ".wav" ".aac")) = .ran rc stderr →
      rc = 0 →
      env.pathExists (pyReplaceStr output_file ".wav" ".aac") = true →
      1000 < env.getsize (pyReplaceStr output_file ".wav" ".aac") →
      extract_audio_stream env video_path output_file sample_rate ffmpeg_path file_id
        = { success := true, file_id := some file_id, stream := some "audio",
            output := some (pyReplaceStr output_file ".wav" ".aac"),
            warning := some "Could not convert to WAV, saved as AAC" }) ∧
    (∀ rc stderr, env.run (sepCopyCmd ffmpeg_path video_path
        (pyReplaceStr output_file ".wav" ".aac")) = .ran rc stderr →
      ¬(rc = 0 ∧ env.pathExists (pyReplaceStr output_file ".wav" ".aac") = true ∧
        1000 < env.getsize (pyReplaceStr output_file ".wav" ".aac")) →
      extract_audio_stream env video_path output_file sample_rate ffmpeg_path file_id
        = { success := false, file_id := some file_id, stream := some "audio",
            error := some "All audio extraction methods failed" }) ∧
    (∀ msg, env.run (sepCopyCmd ffmpeg_path video_path
        (pyReplaceStr output_file ".wav" ".aac")) = .raised msg →
      extract_audio_stream env video_path output_file sample_rate ffmpeg_path file_id
        = { success := false, file_id := some file_id, stream := some "audio",
            error := some "All audio extraction methods failed" }) ∧
    (".wav".data <:+ output_file.data →
      ".aac".data <:+ (pyReplaceStr output_file ".wav" ".aac").data) := by
  refine ⟨?_, ?_, ?_, ?_⟩
  · intro rc stderr hrun hrc hex hsize
    simp only [extract_audio_stream, hfail, hrun]
    rw [if_pos ⟨hrc, hex, hsize⟩]
  · intro rc stderr hrun hnot
    simp only [extract_audio_stream, hfail, hrun]
    rw [if_neg hnot]
  · intro msg hrun
    simp only [extract_audio_stream, hfail, hrun]
  · intro hsuf
    exact pyReplaceAux_wav_suffix output_file.data.length output_file.data
      (le_refl _) hsuf

/-- A separator environment where only the raw-copy command succeeds. -/
def sepEnvFallbackW : SepEnv where
  probe := fun _ => none
  run := fun cmd => if cmd.getD 6 "" = "copy" then .ran 0 "" else .ran 1 ""
  pathExists := fun _ => true
  getsize := fun _ => 5000
  absDir := fun _ => "/v"
  videotoolbox := false

/-- Witness for C10: all three WAV methods fail, the raw copy succeeds,
and the result is a success whose output is the `.aac` path. -/
theorem C10_audio_fallback_witness :
    (tryAudioMethods sepEnvFallbackW "/v/x_audio.wav" "x.mp4"
        (audio_method_cmds "ffmpeg" "/v/x.mp4" "/v/x_audio.wav" 48000) = none ∧
      sepEnvFallbackW.run (sepCopyCmd "ffmpeg" "/v/x.mp4"
        (pyReplaceStr "/v/x_audio.wav" ".wav" ".aac")) = .ran 0 "" ∧
      sepEnvFallbackW.pathExists
        (pyReplaceStr "/v/x_audio.wav" ".wav" ".aac") = true ∧
      1000 < sepEnvFallbackW.getsize
        (pyReplaceStr "/v/x_audio.wav" ".wav" ".aac")) ∧
    extract_audio_stream sepEnvFallbackW "/v/x.mp4" "/v/x_audio.wav" 48000
        "ffmpeg" "x.mp4"
      = { success := true, file_id := some "x.mp4", stream := some "audio",
          output := some (pyReplaceStr "/v/x_audio.wav" ".wav" ".aac"),
          warning := some "Could not convert to WAV, saved as AAC" } :=
  ⟨⟨by decide, by decide, rfl, by decide⟩,
    (C10_audio_fallback sepEnvFallbackW "/v/x.mp4" "/v/x_audio.wav" 48000
      "ffmpeg" "x.mp4" (by decide)).1 0 "" (by decide) rfl rfl (by decide)⟩
